import Mathlib

/-!
Verification development for the panova-ai/portia clinical-import pipeline.

This file gives a shallow embedding, in Lean 4, of the pure core of the
pipeline, translated from the Python sources:

* `src/import_/charm/extractor.py`   — encounter synthesis from note dates
* `src/import_/charm/linker.py`      — nearest-prior-or-exact encounter linking
* `src/import_/matching/identifier_service.py` — stable identifiers, duplicate
  collapse and reference remapping
* `src/import_/matching/patient_matcher.py`    — person/patient identity states
* `src/transform/r4_to_r5/bundle.py` — per-kind schema transform dispatch and
  orphaned-encounter-reference cleanup
* `src/import_/ccda_preprocessor.py` and `src/import_/gateway.py` — dose-range
  sanitization and restoration

Modelling conventions: Python `dict`/`list` JSON-ish values are embedded as the
inductive `JVal` (objects are ordered association lists, as Python dicts
preserve insertion order); Python `datetime.date` is embedded as `PyDate` with
Python's lexicographic comparison on (year, month, day); Python `str(int)` is
embedded as the executable decimal printer `pyNatRepr`; mutation is embedded as
explicit state passing; functions that can raise return `Except`/`Option`.
-/

/-! ## Decimal printing (model of Python `str` on non-negative integers) -/

/-- One decimal digit character; total, clamping everything above 9 to '9'
(callers only apply it to `n % 10` or `n < 10`). -/
def digitChar : Nat → Char
  | 0 => '0'
  | 1 => '1'
  | 2 => '2'
  | 3 => '3'
  | 4 => '4'
  | 5 => '5'
  | 6 => '6'
  | 7 => '7'
  | 8 => '8'
  | _ => '9'

/-- Fuelled digit expansion, most significant digit first. -/
def pyNatReprAux : Nat → Nat → List Char
  | 0, _ => []
  | fuel + 1, n =>
      if n < 10 then [digitChar n]
      else pyNatReprAux fuel (n / 10) ++ [digitChar (n % 10)]

/-- Model of Python `str(n)` for a non-negative integer `n`. -/
def pyNatRepr (n : Nat) : String := ⟨pyNatReprAux (n + 1) n⟩

theorem digitChar_isDigit (n : Nat) : (digitChar n).isDigit := by
  unfold digitChar; split <;> decide

theorem isDigit_of_mem_pyNatReprAux :
    ∀ (fuel n : Nat), ∀ c ∈ pyNatReprAux fuel n, c.isDigit := by
  intro fuel
  induction fuel with
  | zero => intro n c hc; simp [pyNatReprAux] at hc
  | succ fuel ih =>
      intro n c hc
      unfold pyNatReprAux at hc
      split at hc
      · simp at hc; subst hc; exact digitChar_isDigit n
      · rcases List.mem_append.mp hc with h | h
        · exact ih _ c h
        · simp at h; subst h; exact digitChar_isDigit _

theorem isDigit_of_mem_pyNatRepr (n : Nat) : ∀ c ∈ (pyNatRepr n).data, c.isDigit :=
  isDigit_of_mem_pyNatReprAux (n + 1) n

/-- Left zero-padding, model of Python's `%0Nd` formatting. -/
def zfill (width : Nat) (s : String) : String :=
  ⟨List.replicate (width - s.length) '0'⟩ ++ s

theorem isDigit_of_mem_zfill (width : Nat) (s : String)
    (hs : ∀ c ∈ s.data, c.isDigit) : ∀ c ∈ (zfill width s).data, c.isDigit := by
  intro c hc
  unfold zfill at hc
  rw [String.data_append] at hc
  rcases List.mem_append.mp hc with h | h
  · have := List.eq_of_mem_replicate h
    subst this; decide
  · exact hs c h

/-! ## Dates (model of Python `datetime.date`)

Python `date` objects compare lexicographically on (year, month, day); that
order is embedded directly. -/

structure PyDate where
  year : Nat
  month : Nat
  day : Nat
deriving DecidableEq, Repr

instance : LT PyDate :=
  ⟨fun a b =>
    a.year < b.year ∨
      (a.year = b.year ∧ (a.month < b.month ∨ (a.month = b.month ∧ a.day < b.day)))⟩

instance : LE PyDate := ⟨fun a b => a < b ∨ a = b⟩

theorem PyDate.lt_def (a b : PyDate) :
    a < b ↔ a.year < b.year ∨
      (a.year = b.year ∧ (a.month < b.month ∨ (a.month = b.month ∧ a.day < b.day))) :=
  Iff.rfl

theorem PyDate.le_def (a b : PyDate) : a ≤ b ↔ a < b ∨ a = b := Iff.rfl

instance (a b : PyDate) : Decidable (a < b) := by
  rw [PyDate.lt_def]; infer_instance

instance (a b : PyDate) : Decidable (a ≤ b) := by
  rw [PyDate.le_def]; infer_instance

theorem PyDate.lt_irrefl (a : PyDate) : ¬ a < a := by
  rw [PyDate.lt_def]; omega

theorem PyDate.lt_trans {a b c : PyDate} (h1 : a < b) (h2 : b < c) : a < c := by
  rw [PyDate.lt_def] at *; omega

theorem PyDate.lt_trichotomy (a b : PyDate) : a < b ∨ a = b ∨ b < a := by
  rcases a with ⟨ay, am, ad⟩
  rcases b with ⟨yy, ym, yd⟩
  simp only [PyDate.lt_def, PyDate.mk.injEq]
  omega

theorem PyDate.lt_asymm {a b : PyDate} (h : a < b) : ¬ b < a := by
  rw [PyDate.lt_def] at *; omega

theorem PyDate.le_of_lt {a b : PyDate} (h : a < b) : a ≤ b := Or.inl h

theorem PyDate.le_refl (a : PyDate) : a ≤ a := Or.inr rfl

theorem PyDate.le_trans {a b c : PyDate} (h1 : a ≤ b) (h2 : b ≤ c) : a ≤ c := by
  rcases h1 with h1 | rfl
  · rcases h2 with h2 | rfl
    · exact Or.inl (PyDate.lt_trans h1 h2)
    · exact Or.inl h1
  · exact h2

theorem PyDate.lt_of_le_of_lt {a b c : PyDate} (h1 : a ≤ b) (h2 : b < c) : a < c := by
  rcases h1 with h1 | rfl
  · exact PyDate.lt_trans h1 h2
  · exact h2

theorem PyDate.lt_of_lt_of_le {a b c : PyDate} (h1 : a < b) (h2 : b ≤ c) : a < c := by
  rcases h2 with h2 | rfl
  · exact PyDate.lt_trans h1 h2
  · exact h1

theorem PyDate.not_lt_iff_le {a b : PyDate} : ¬ a < b ↔ b ≤ a := by
  constructor
  · intro h
    rcases PyDate.lt_trichotomy a b with h1 | rfl | h1
    · exact absurd h1 h
    · exact PyDate.le_refl a
    · exact Or.inl h1
  · intro h hlt
    rcases h with h | rfl
    · exact PyDate.lt_asymm h hlt
    · exact PyDate.lt_irrefl _ hlt

/-- Model of Python `date.isoformat()`: zero-padded `YYYY-MM-DD`. -/
def PyDate.isoformat (d : PyDate) : String :=
  zfill 4 (pyNatRepr d.year) ++ "-" ++ zfill 2 (pyNatRepr d.month) ++ "-" ++
    zfill 2 (pyNatRepr d.day)

/-! ## `sorted(set(...))` on dates -/

/-- Insert a date into a strictly-sorted list, dropping duplicates. -/
def insertDate (d : PyDate) : List PyDate → List PyDate
  | [] => [d]
  | x :: xs =>
      if d < x then d :: x :: xs
      else if d = x then x :: xs
      else x :: insertDate d xs

/-- Model of Python `sorted(set(l))` for a list of dates: the strictly
ascending enumeration of the distinct elements of `l`. -/
def sorted_set (l : List PyDate) : List PyDate := l.foldr insertDate []

theorem mem_insertDate {a d : PyDate} :
    ∀ {l : List PyDate}, a ∈ insertDate d l ↔ a = d ∨ a ∈ l := by
  intro l
  induction l with
  | nil => simp [insertDate]
  | cons x xs ih =>
      unfold insertDate
      by_cases h1 : d < x
      · rw [if_pos h1]; simp only [List.mem_cons]
      · rw [if_neg h1]
        by_cases h2 : d = x
        · rw [if_pos h2]; subst h2; simp only [List.mem_cons]; tauto
        · rw [if_neg h2]; simp [ih]; tauto

theorem pairwise_insertDate {d : PyDate} :
    ∀ {l : List PyDate}, l.Pairwise (· < ·) → (insertDate d l).Pairwise (· < ·) := by
  intro l
  induction l with
  | nil => intro _; simp [insertDate]
  | cons x xs ih =>
      intro hp
      rcases List.pairwise_cons.mp hp with ⟨hx, hxs⟩
      unfold insertDate
      by_cases h1 : d < x
      · rw [if_pos h1]
        refine List.pairwise_cons.mpr ⟨?_, hp⟩
        intro b hb
        rcases List.mem_cons.mp hb with rfl | hb
        · exact h1
        · exact PyDate.lt_trans h1 (hx b hb)
      · rw [if_neg h1]
        by_cases h2 : d = x
        · rw [if_pos h2]; exact hp
        · rw [if_neg h2]
          refine List.pairwise_cons.mpr ⟨?_, ih hxs⟩
          intro b hb
          rcases mem_insertDate.mp hb with rfl | hb
          · rcases PyDate.lt_trichotomy x b with h | h | h
            · exact h
            · exact absurd h.symm h2
            · exact absurd h h1
          · exact hx b hb

theorem pairwise_sorted_set (l : List PyDate) : (sorted_set l).Pairwise (· < ·) := by
  unfold sorted_set
  induction l with
  | nil => simp
  | cons x xs ih => exact pairwise_insertDate ih

theorem mem_sorted_set {a : PyDate} :
    ∀ {l : List PyDate}, a ∈ sorted_set l ↔ a ∈ l := by
  intro l
  induction l with
  | nil => simp [sorted_set]
  | cons x xs ih =>
      unfold sorted_set at *
      simp only [List.foldr_cons, mem_insertDate, List.mem_cons, ih]

/-! ## Clinical extractor (`src/import_/charm/extractor.py`)

The dataclasses `ClinicalNote`, `ProblemEntry`, `MedicationEntry`,
`EncounterData` and the pure synthesis step `_synthesize_encounters`. -/

structure ClinicalNote where
  date : PyDate
  note_type : String
  content : String
  note_id : Option String := none
deriving DecidableEq, Repr

structure ProblemEntry where
  code : String
  display : String
  start_date : PyDate
  end_date : Option PyDate
  ccda_id : String
deriving DecidableEq, Repr

structure MedicationEntry where
  code : String
  display : String
  start_date : Option PyDate
  end_date : Option PyDate
  dosage : Option String
  route : Option String
  ccda_id : String
deriving DecidableEq, Repr

structure EncounterData where
  date : PyDate
  notes : List ClinicalNote := []
  problem_ids : List String := []
  medication_ids : List String := []
deriving DecidableEq, Repr

/-- A problem is active on `d` when `p.start_date <= d and (p.end_date is None
or p.end_date >= d)`. -/
def problemActiveOn (p : ProblemEntry) (d : PyDate) : Bool :=
  decide (p.start_date ≤ d) &&
    (match p.end_date with
     | none => true
     | some e => decide (d ≤ e))

/-- A medication is active on `d` when `m.start_date and m.start_date <= d and
(m.end_date is None or m.end_date >= d)`; a missing start date is falsy. -/
def medicationActiveOn (m : MedicationEntry) (d : PyDate) : Bool :=
  match m.start_date with
  | none => false
  | some s =>
      decide (s ≤ d) &&
        (match m.end_date with
         | none => true
         | some e => decide (d ≤ e))

/-- Embedding of `CharmCcdaExtractor._synthesize_encounters`: each distinct
note date, in ascending order, becomes one `EncounterData`, carrying the notes
of that date and the ids of the problems/medications active on it. -/
def synthesize_encounters (notes : List ClinicalNote) (problems : List ProblemEntry)
    (medications : List MedicationEntry) : List EncounterData :=
  let encounter_dates := sorted_set (notes.map ClinicalNote.date)
  encounter_dates.map (fun enc_date =>
    { date := enc_date
      notes := notes.filter (fun n => n.date = enc_date)
      problem_ids := (problems.filter (fun p => problemActiveOn p enc_date)).map
        ProblemEntry.ccda_id
      medication_ids := (medications.filter (fun m => medicationActiveOn m enc_date)).map
        MedicationEntry.ccda_id })

theorem date_of_mem_synthesize {notes problems medications} {e : EncounterData}
    (he : e ∈ synthesize_encounters notes problems medications) :
    e.problem_ids = (problems.filter (fun p => problemActiveOn p e.date)).map
        ProblemEntry.ccda_id ∧
    e.medication_ids = (medications.filter (fun m => medicationActiveOn m e.date)).map
        MedicationEntry.ccda_id := by
  unfold synthesize_encounters at he
  simp only [List.mem_map] at he
  obtain ⟨d, _, rfl⟩ := he
  exact ⟨rfl, rfl⟩

theorem map_date_synthesize (notes : List ClinicalNote) (problems : List ProblemEntry)
    (medications : List MedicationEntry) :
    (synthesize_encounters notes problems medications).map EncounterData.date =
      sorted_set (notes.map ClinicalNote.date) := by
  unfold synthesize_encounters
  rw [List.map_map]
  show List.map (fun d => d) _ = _
  simp

/-- Claim C3: `_synthesize_encounters` produces exactly one encounter per
distinct note date, in strictly ascending date order, and a problem with range
`[start, end]` is attached to exactly those encounters whose date lies in the
range with both endpoints inclusive (an absent end date attaching it to every
encounter on or after its start date). -/
theorem C3_encounter_synthesis_determinism
    (notes : List ClinicalNote) (problems : List ProblemEntry)
    (medications : List MedicationEntry)
    (hnd : (problems.map ProblemEntry.ccda_id).Nodup) :
    ((synthesize_encounters notes problems medications).map EncounterData.date).Pairwise
        (· < ·) ∧
    (∀ d, d ∈ (synthesize_encounters notes problems medications).map EncounterData.date ↔
        ∃ n ∈ notes, n.date = d) ∧
    (∀ e ∈ synthesize_encounters notes problems medications, ∀ p ∈ problems,
        (p.ccda_id ∈ e.problem_ids ↔
          (p.start_date ≤ e.date ∧
            ∀ ed, p.end_date = some ed → e.date ≤ ed))) := by
  refine ⟨?_, ?_, ?_⟩
  · rw [map_date_synthesize]
    exact pairwise_sorted_set _
  · intro d
    rw [map_date_synthesize, mem_sorted_set]
    simp [eq_comm]
  · intro e he p hp
    obtain ⟨hpids, -⟩ := date_of_mem_synthesize he
    rw [hpids]
    constructor
    · intro hmem
      obtain ⟨q, hq, hqid⟩ := List.mem_map.mp hmem
      obtain ⟨hqmem, hqact⟩ := List.mem_filter.mp hq
      have : q = p := by
        have hinj := List.inj_on_of_nodup_map hnd
        exact hinj hqmem hp hqid
      subst this
      unfold problemActiveOn at hqact
      simp only [Bool.and_eq_true, decide_eq_true_eq] at hqact
      refine ⟨hqact.1, ?_⟩
      intro ed hed
      have := hqact.2
      rw [hed] at this
      simpa using this
    · intro ⟨h1, h2⟩
      refine List.mem_map.mpr ⟨p, List.mem_filter.mpr ⟨hp, ?_⟩, rfl⟩
      unfold problemActiveOn
      simp only [Bool.and_eq_true, decide_eq_true_eq]
      refine ⟨h1, ?_⟩
      cases hed : p.end_date with
      | none => simp
      | some ed => simpa using h2 ed hed

/-- Witness for C3 at a concrete input: notes on three distinct dates, one
problem active on the middle date only. -/
theorem C3_encounter_synthesis_determinism_witness :
    let n1 : ClinicalNote := ⟨⟨2023, 3, 21⟩, "HPI", "a", none⟩
    let n2 : ClinicalNote := ⟨⟨2023, 3, 28⟩, "HPI", "b", none⟩
    let p : ProblemEntry := ⟨"c", "d", ⟨2023, 3, 22⟩, some ⟨2023, 3, 28⟩, "id1"⟩
    ([p].map ProblemEntry.ccda_id).Nodup ∧
    (((synthesize_encounters [n1, n2] [p] []).map EncounterData.date).Pairwise (· < ·) ∧
     (∀ d, d ∈ (synthesize_encounters [n1, n2] [p] []).map EncounterData.date ↔
        ∃ n ∈ [n1, n2], n.date = d) ∧
     (∀ e ∈ synthesize_encounters [n1, n2] [p] [], ∀ q ∈ [p],
        (q.ccda_id ∈ e.problem_ids ↔
          (q.start_date ≤ e.date ∧ ∀ ed, q.end_date = some ed → e.date ≤ ed)))) := by
  refine ⟨by decide, C3_encounter_synthesis_determinism _ _ _ (by decide)⟩

/-- Claim C9: a medication extracted with `start_date = None` is attached to no
synthesized encounter, whatever its end date. -/
theorem C9_undated_medication_never_attached
    (notes : List ClinicalNote) (problems : List ProblemEntry)
    (medications : List MedicationEntry) (m : MedicationEntry)
    (hm : m ∈ medications) (hs : m.start_date = none)
    (hnd : (medications.map MedicationEntry.ccda_id).Nodup) :
    ∀ e ∈ synthesize_encounters notes problems medications,
      m.ccda_id ∉ e.medication_ids := by
  intro e he hmem
  obtain ⟨-, hmids⟩ := date_of_mem_synthesize he
  rw [hmids] at hmem
  obtain ⟨q, hq, hqid⟩ := List.mem_map.mp hmem
  obtain ⟨hqmem, hqact⟩ := List.mem_filter.mp hq
  have : q = m := List.inj_on_of_nodup_map hnd hqmem hm hqid
  subst this
  unfold medicationActiveOn at hqact
  rw [hs] at hqact
  simp at hqact

/-- Witness for C9 at a concrete input: a note on 2023-03-21 synthesizes an
encounter, and an undated medication whose end date 2023-12-31 covers that date
is still attached to no encounter. -/
theorem C9_undated_medication_never_attached_witness :
    let n : ClinicalNote := ⟨⟨2023, 3, 21⟩, "HPI", "a", none⟩
    let m : MedicationEntry := ⟨"rx", "drug", none, some ⟨2023, 12, 31⟩, none, none, "mid"⟩
    m ∈ [m] ∧ m.start_date = none ∧ ([m].map MedicationEntry.ccda_id).Nodup ∧
    ((synthesize_encounters [n] [] [m]).length = 1 ∧
      ∀ e ∈ synthesize_encounters [n] [] [m], m.ccda_id ∉ e.medication_ids) := by
  refine ⟨by decide, by decide, by decide, by decide,
    C9_undated_medication_never_attached [_] [] [_] _ (by decide) (by decide) (by decide)⟩

/-! ## Identifier service (`src/import_/matching/identifier_service.py`)

`IdentifierService`'s per-kind identifier rules. The service's
`source_system` field is never read by these rules, so they are embedded as
plain functions; `patient_id : UUID` is embedded as its string form (the rules
only interpolate it into strings). -/

def IMPORT_IDENTIFIER_SYSTEM : String := "urn:panova:import"

def ENCOUNTER_IDENTIFIER_SYSTEM : String := IMPORT_IDENTIFIER_SYSTEM ++ ":encounter"

def CONDITION_IDENTIFIER_SYSTEM : String := IMPORT_IDENTIFIER_SYSTEM ++ ":condition"

def COMPOSITION_IDENTIFIER_SYSTEM : String := IMPORT_IDENTIFIER_SYSTEM ++ ":composition"

def MEDICATION_IDENTIFIER_SYSTEM : String := IMPORT_IDENTIFIER_SYSTEM ++ ":medication"

def OBSERVATION_IDENTIFIER_SYSTEM : String := IMPORT_IDENTIFIER_SYSTEM ++ ":observation"

structure ResourceIdentifier where
  system : String
  value : String
deriving DecidableEq, Repr

/-- `ResourceIdentifier.to_search_param`: the `system|value` search form. -/
def ResourceIdentifier.to_search_param (i : ResourceIdentifier) : String :=
  i.system ++ "|" ++ i.value

/-- `IdentifierService.encounter_identifier`: value `{patient_id}:{YYYY-MM-DD}`. -/
def encounter_identifier (patient_id : String) (encounter_date : PyDate) :
    ResourceIdentifier :=
  ⟨ENCOUNTER_IDENTIFIER_SYSTEM, patient_id ++ ":" ++ encounter_date.isoformat⟩

/-- `IdentifierService.condition_identifier`: value
`{patient_id}:{code}:{YYYY-MM-DD}` (the onset date parameter is not optional). -/
def condition_identifier (patient_id code : String) (onset_date : PyDate) :
    ResourceIdentifier :=
  ⟨CONDITION_IDENTIFIER_SYSTEM, patient_id ++ ":" ++ code ++ ":" ++ onset_date.isoformat⟩

/-- `IdentifierService.composition_identifier`: value `{patient_id}:{YYYY-MM-DD}`. -/
def composition_identifier (patient_id : String) (encounter_date : PyDate) :
    ResourceIdentifier :=
  ⟨COMPOSITION_IDENTIFIER_SYSTEM, patient_id ++ ":" ++ encounter_date.isoformat⟩

/-- `IdentifierService.medication_identifier`: value
`{patient_id}:{code}:{YYYY-MM-DD | "unknown"}`. -/
def medication_identifier (patient_id code : String) (start_date : Option PyDate) :
    ResourceIdentifier :=
  let date_part := match start_date with
    | some d => d.isoformat
    | none => "unknown"
  ⟨MEDICATION_IDENTIFIER_SYSTEM, patient_id ++ ":" ++ code ++ ":" ++ date_part⟩

/-- `IdentifierService.observation_identifier`: value
`{patient_id}:{code}:{YYYY-MM-DD}`. -/
def observation_identifier (patient_id code : String) (effective_date : PyDate) :
    ResourceIdentifier :=
  ⟨OBSERVATION_IDENTIFIER_SYSTEM, patient_id ++ ":" ++ code ++ ":" ++ effective_date.isoformat⟩

/-! Colon counting, used to decide whether an identifier value can be decomposed
into the `{subjectId}:{code|none}:{date}` shape the spec claims. -/

def countColon (s : String) : Nat := s.data.count ':'

theorem countColon_append (a b : String) :
    countColon (a ++ b) = countColon a + countColon b := by
  unfold countColon
  rw [String.data_append, List.count_append]

theorem countColon_eq_zero_of_isDigit {s : String}
    (h : ∀ c ∈ s.data, c.isDigit) : countColon s = 0 := by
  unfold countColon
  rw [List.count_eq_zero]
  intro hc
  have := h _ hc
  simp [Char.isDigit] at this

theorem countColon_isoformat (d : PyDate) : countColon d.isoformat = 0 := by
  unfold PyDate.isoformat
  rw [countColon_append, countColon_append, countColon_append, countColon_append]
  rw [countColon_eq_zero_of_isDigit (isDigit_of_mem_zfill 4 _ (isDigit_of_mem_pyNatRepr _)),
    countColon_eq_zero_of_isDigit (isDigit_of_mem_zfill 2 _ (isDigit_of_mem_pyNatRepr _)),
    countColon_eq_zero_of_isDigit (isDigit_of_mem_zfill 2 _ (isDigit_of_mem_pyNatRepr _))]
  decide

/-- The textual form the spec claims for every stable identifier:
`{subjectId}:{code|none}:{date}` — a subject segment, a code segment and a
date segment separated by colons. -/
def specIdentifierForm (subjectId v : String) : Prop :=
  ∃ code datePart, v = subjectId ++ ":" ++ code ++ ":" ++ datePart

theorem countColon_ge_two_of_specIdentifierForm {pid v : String}
    (h : specIdentifierForm pid v) : 2 ≤ countColon v := by
  obtain ⟨code, datePart, rfl⟩ := h
  rw [countColon_append, countColon_append, countColon_append, countColon_append]
  have h1 : countColon ":" = 1 := by decide
  omega

/-- Counterexample to claim C4: the Encounter identifier value for subject "p"
on 2023-03-21 is `p:2023-03-21`, which contains a single colon and therefore
has no code segment at all — it cannot be decomposed as
`{subjectId}:{code|none}:{date}`. -/
theorem C4_identifier_form_counterexample :
    ¬ specIdentifierForm "p" ((encounter_identifier "p" ⟨2023, 3, 21⟩).value) := by
  intro h
  have h2 := countColon_ge_two_of_specIdentifierForm h
  have h1 : countColon ((encounter_identifier "p" ⟨2023, 3, 21⟩).value) = 1 := by decide
  omega

/-- Claim C4, amended: Condition, Observation and MedicationStatement
identifiers have the form `{subjectId}:{code}:{date}` — with the date segment
an ISO date for Condition and Observation (never "unknown", since their rules
require a date) and `ISO date | "unknown"` for MedicationStatement — while
Encounter and Composition identifiers have the two-segment form
`{subjectId}:{ISO-date}` with no code segment (not even a "none"
placeholder); each rule uses its own per-kind namespace system. -/
theorem C4_identifier_textual_form (pid code : String) (d : PyDate)
    (hpid : countColon pid = 0) :
    ((condition_identifier pid code d).system = "urn:panova:import:condition" ∧
      (condition_identifier pid code d).value = pid ++ ":" ++ code ++ ":" ++ d.isoformat ∧
      specIdentifierForm pid (condition_identifier pid code d).value) ∧
    ((observation_identifier pid code d).system = "urn:panova:import:observation" ∧
      specIdentifierForm pid (observation_identifier pid code d).value) ∧
    ((medication_identifier pid code none).system = "urn:panova:import:medication" ∧
      (medication_identifier pid code none).value = pid ++ ":" ++ code ++ ":" ++ "unknown" ∧
      (medication_identifier pid code (some d)).value =
        pid ++ ":" ++ code ++ ":" ++ d.isoformat) ∧
    ((encounter_identifier pid d).system = "urn:panova:import:encounter" ∧
      (encounter_identifier pid d).value = pid ++ ":" ++ d.isoformat ∧
      countColon (encounter_identifier pid d).value = 1 ∧
      ¬ specIdentifierForm pid (encounter_identifier pid d).value) ∧
    ((composition_identifier pid d).system = "urn:panova:import:composition" ∧
      (composition_identifier pid d).value = pid ++ ":" ++ d.isoformat ∧
      ¬ specIdentifierForm pid (composition_identifier pid d).value) := by
  have hone : countColon ":" = 1 := by decide
  have henc : countColon (pid ++ ":" ++ d.isoformat) = 1 := by
    rw [countColon_append, countColon_append, hpid, hone, countColon_isoformat]
  refine ⟨⟨rfl, rfl, ?_⟩, ⟨rfl, ?_⟩, ⟨rfl, rfl, rfl⟩, ⟨rfl, rfl, henc, ?_⟩, ⟨rfl, rfl, ?_⟩⟩
  · exact ⟨code, d.isoformat, rfl⟩
  · exact ⟨code, d.isoformat, rfl⟩
  · intro h
    have h2 := countColon_ge_two_of_specIdentifierForm h
    have h1 : countColon ((encounter_identifier pid d).value) = 1 := henc
    omega
  · intro h
    have h2 := countColon_ge_two_of_specIdentifierForm h
    have h1 : countColon ((composition_identifier pid d).value) = 1 := henc
    omega

/-- Witness for the amended C4 at a concrete input. -/
theorem C4_identifier_textual_form_witness :
    countColon "p" = 0 ∧
    ((condition_identifier "p" "44054006" ⟨2023, 3, 21⟩).value =
        "p:44054006:2023-03-21" ∧
      (encounter_identifier "p" ⟨2023, 3, 21⟩).value = "p:2023-03-21" ∧
      ¬ specIdentifierForm "p" ((encounter_identifier "p" ⟨2023, 3, 21⟩).value)) := by
  have h := C4_identifier_textual_form "p" "44054006" ⟨2023, 3, 21⟩ (by decide)
  refine ⟨by decide, by decide, by decide, h.2.2.2.1.2.2.2⟩

/-! ## Patient matcher (`src/import_/matching/patient_matcher.py`)

`PatientMatcher.match_or_create` embedded with its external FHIR calls made
explicit: the Person search result, the `find_or_create_for_person_and_organization`
call and the `_create_person` call are oracles, and the embedding additionally
returns the list of FHIR calls it performed, in order. -/

inductive MatchStatus where
  | existing_person_existing_patient
  | existing_person_new_patient
  | new_person_new_patient
  | multiple_matches
  | match_failed
deriving DecidableEq, Repr

structure Person where
  id : String
  link : List (Option String) := []
deriving DecidableEq, Repr

structure Patient where
  id : String
deriving DecidableEq, Repr

structure PatientDemographics where
  given_name : String
  family_name : String
  birth_date : PyDate
  gender : Option String := none
  phone : Option String := none
  email : Option String := none
  address_line : Option String := none
  address_city : Option String := none
  address_state : Option String := none
  address_postal_code : Option String := none
deriving DecidableEq, Repr

structure MatchResult where
  status : MatchStatus
  person_id : Option String := none
  patient_id : Option String := none
  person_created : Bool := false
  patient_created : Bool := false
  warnings : Option (List String) := none
deriving DecidableEq, Repr

inductive FhirCall where
  | search_person
  | find_or_create_patient (person_id : String) (organization_id : String)
  | create_person
deriving DecidableEq, Repr

/-- Embedding of `PatientMatcher.match_or_create`. The three-way branch on
`len(persons)` (`> 1`, `== 1`, else `0`) is written as a match on the searched
list. Each `Person.link` entry is the link's target reference (or `none` when
the link has no target). -/
def match_or_create (demographics : PatientDemographics) (organization_id : String)
    (persons : List Person)
    (find_or_create : Person → String → Patient)
    (created_person : Person) : MatchResult × List FhirCall :=
  let _ := demographics
  match persons with
  | _ :: _ :: _ =>
      ({ status := .multiple_matches,
         warnings := some ["Found " ++ pyNatRepr persons.length ++
           " Person resources matching demographics. Manual resolution required."] },
       [.search_person])
  | [person] =>
      let patient := find_or_create person organization_id
      let patient_existed := person.link.any (fun l =>
        match l with
        | some r => r == "Patient/" ++ patient.id
        | none => false)
      if patient_existed then
        ({ status := .existing_person_existing_patient,
           person_id := some person.id, patient_id := some patient.id,
           person_created := false, patient_created := false },
         [.search_person, .find_or_create_patient person.id organization_id])
      else
        ({ status := .existing_person_new_patient,
           person_id := some person.id, patient_id := some patient.id,
           person_created := false, patient_created := true,
           warnings := some ["Created new Patient for existing Person in organization"] },
         [.search_person, .find_or_create_patient person.id organization_id])
  | [] =>
      let new_person := created_person
      let new_patient := find_or_create new_person organization_id
      ({ status := .new_person_new_patient,
         person_id := some new_person.id, patient_id := some new_patient.id,
         person_created := true, patient_created := true,
         warnings := some ["Created new Person and Patient resources"] },
       [.search_person, .create_person,
        .find_or_create_patient new_person.id organization_id])

/-- Claim C8: when the Person search returns more than one match,
`match_or_create` returns `MULTIPLE_MATCHES` with both ids unset and performs
no Person-create and no Patient find-or-create call — only the search itself is
on the call log, so no Patient is persisted. -/
theorem C8_multiple_matches_abort (demographics : PatientDemographics)
    (organization_id : String) (persons : List Person)
    (find_or_create : Person → String → Patient) (created_person : Person)
    (h : 1 < persons.length) :
    (match_or_create demographics organization_id persons find_or_create
        created_person).1.status = .multiple_matches ∧
    (match_or_create demographics organization_id persons find_or_create
        created_person).1.person_id = none ∧
    (match_or_create demographics organization_id persons find_or_create
        created_person).1.patient_id = none ∧
    ∀ c ∈ (match_or_create demographics organization_id persons find_or_create
        created_person).2, c = .search_person := by
  match persons with
  | [] => simp at h
  | [p] => simp at h
  | p :: q :: rest => simp [match_or_create]

/-- Witness for C8: a search returning two Persons. -/
theorem C8_multiple_matches_abort_witness :
    let demo : PatientDemographics :=
      ⟨"A", "B", ⟨1990, 1, 1⟩, none, none, none, none, none, none, none⟩
    let p1 : Person := ⟨"person-1", []⟩
    let p2 : Person := ⟨"person-2", []⟩
    1 < ([p1, p2] : List Person).length ∧
    ((match_or_create demo "org-1" [p1, p2] (fun _ _ => ⟨"pat"⟩) p1).1.status =
        .multiple_matches ∧
      (match_or_create demo "org-1" [p1, p2] (fun _ _ => ⟨"pat"⟩) p1).1.person_id = none ∧
      (match_or_create demo "org-1" [p1, p2] (fun _ _ => ⟨"pat"⟩) p1).1.patient_id = none ∧
      ∀ c ∈ (match_or_create demo "org-1" [p1, p2] (fun _ _ => ⟨"pat"⟩) p1).2,
        c = .search_person) := by
  refine ⟨by decide, C8_multiple_matches_abort _ _ _ _ _ (by decide)⟩

/-! ## JSON-ish values (model of the Python `dict`/`list` resource graphs)

Objects are ordered association lists (Python dicts preserve insertion order;
keys are unique in any dict produced by Python, and all operations below use
the first occurrence of a key, which coincides with dict behaviour on
unique-keyed objects). Numbers are embedded as rationals. -/

inductive JVal where
  | str (s : String)
  | num (q : Rat)
  | bool (b : Bool)
  | null
  | obj (fields : List (String × JVal))
  | arr (items : List JVal)

abbrev JObj := List (String × JVal)

def jlookup (fields : JObj) (k : String) : Option JVal :=
  match fields with
  | [] => none
  | (k', v) :: rest => if k' = k then some v else jlookup rest k

/-- Python `d[k] = v`: replace in place, else append (insertion order). -/
def jsetField (fields : JObj) (k : String) (v : JVal) : JObj :=
  match fields with
  | [] => [(k, v)]
  | (k', v') :: rest => if k' = k then (k, v) :: rest else (k', v') :: jsetField rest k v

/-- Python `del d[k]` (no-op when the key is absent). -/
def jdelField (fields : JObj) (k : String) : JObj :=
  match fields with
  | [] => []
  | (k', v') :: rest => if k' = k then rest else (k', v') :: jdelField rest k

def JVal.get? (j : JVal) (k : String) : Option JVal :=
  match j with
  | .obj fields => jlookup fields k
  | _ => none

/-- Python `d.get(k, default)`. -/
def JVal.getD (j : JVal) (k : String) (d : JVal) : JVal := (j.get? k).getD d

def JVal.set (j : JVal) (k : String) (v : JVal) : JVal :=
  match j with
  | .obj fields => .obj (jsetField fields k v)
  | _ => j

def JVal.del (j : JVal) (k : String) : JVal :=
  match j with
  | .obj fields => .obj (jdelField fields k)
  | _ => j

/-- `d.get(k)` when the value is a string (the reference-handling code only
ever consumes string-valued fields; non-string values are treated as absent). -/
def JVal.getStr? (j : JVal) (k : String) : Option String :=
  match j.get? k with
  | some (.str s) => some s
  | _ => none

def JVal.hasKey (j : JVal) (k : String) : Bool := (j.get? k).isSome

/-- Python truthiness of an optional string: `None` and `""` are falsy. -/
def truthyStr : Option String → Option String
  | some "" => none
  | none => none
  | some s => some s

/-- Python `a or b` on optional strings. -/
def pyOrStr (a b : Option String) : Option String :=
  match truthyStr a with
  | some s => some s
  | none => b

/-! ## Date parsing (model of `date.fromisoformat` on `YYYY-MM-DD`) -/

def isLeapYear (y : Nat) : Bool := (y % 4 == 0 && y % 100 != 0) || y % 400 == 0

def daysInMonth (y m : Nat) : Nat :=
  if m = 2 then (if isLeapYear y then 29 else 28)
  else if m = 4 ∨ m = 6 ∨ m = 9 ∨ m = 11 then 30
  else 31

def charDigit (c : Char) : Nat := c.toNat - 48

/-- Model of Python `date.fromisoformat` on the dashed `YYYY-MM-DD` form the
pipeline produces, with calendar validation; anything else is a parse failure
(`ValueError`). -/
def date_fromisoformat (s : String) : Option PyDate :=
  match s.data with
  | [y1, y2, y3, y4, c1, m1, m2, c2, d1, d2] =>
      if c1 = '-' ∧ c2 = '-' ∧ y1.isDigit ∧ y2.isDigit ∧ y3.isDigit ∧ y4.isDigit ∧
          m1.isDigit ∧ m2.isDigit ∧ d1.isDigit ∧ d2.isDigit then
        let y := charDigit y1 * 1000 + charDigit y2 * 100 + charDigit y3 * 10 + charDigit y4
        let m := charDigit m1 * 10 + charDigit m2
        let d := charDigit d1 * 10 + charDigit d2
        if 1 ≤ y ∧ 1 ≤ m ∧ m ≤ 12 ∧ 1 ≤ d ∧ d ≤ daysInMonth y m then
          some ⟨y, m, d⟩
        else none
      else none
  | _ => none

/-- The linker's date parsing: `onset.split("T")[0]` when a `T` is present,
else `onset[:10]`, fed to `date.fromisoformat`; a `ValueError` becomes `none`. -/
def parse_fhir_date (s : String) : Option PyDate :=
  if s.data.contains 'T' then
    date_fromisoformat ⟨s.data.takeWhile (· ≠ 'T')⟩
  else
    date_fromisoformat ⟨s.data.take 10⟩

/-! ## Resource linker (`src/import_/charm/linker.py`) -/

/-- Insertion into a key-sorted pair list (model of `sorted(dict.items())`;
dict keys are unique, so the value component never decides the order). -/
def insertPair (p : PyDate × String) : List (PyDate × String) → List (PyDate × String)
  | [] => [p]
  | q :: rest => if p.1 < q.1 then p :: q :: rest else q :: insertPair p rest

def sortPairs (l : List (PyDate × String)) : List (PyDate × String) :=
  l.foldr insertPair []

/-- The linker's scan over `sorted(encounter_date_to_ref.items())`: an exact
date match breaks out of the loop; otherwise each strictly earlier date
overwrites the remembered reference. -/
def linkLoop : List (PyDate × String) → PyDate → Option String → Option String
  | [], _, acc => acc
  | (d, r) :: rest, t, acc =>
      if d = t then some r
      else if d < t then linkLoop rest t (some r)
      else linkLoop rest t acc

/-- The Condition onset resolution: `onsetDateTime or onsetPeriod.start`,
falling back to `recordedDate`; the falsy result means "no onset". -/
def conditionOnsetString (condition : JVal) : Option String :=
  let onset := pyOrStr (condition.getStr? "onsetDateTime")
      ((condition.getD "onsetPeriod" (.obj [])).getStr? "start")
  let onset := match truthyStr onset with
    | none => condition.getStr? "recordedDate"
    | some s => some s
  truthyStr onset

/-- Embedding of `_link_condition_to_encounter` (the `problems` and
`ccda_to_fhir` parameters are unused by the source body, as here). -/
def link_condition_to_encounter (condition : JVal) (problems : List ProblemEntry)
    (ccda_to_fhir : List (String × String))
    (encounter_date_to_ref : List (PyDate × String)) : JVal × Bool :=
  let _ := problems
  let _ := ccda_to_fhir
  match conditionOnsetString condition with
  | none => (condition, false)
  | some onset =>
      match parse_fhir_date onset with
      | none => (condition, false)
      | some onset_date =>
          match linkLoop (sortPairs encounter_date_to_ref) onset_date none with
          | some ref => (condition.set "encounter" (.obj [("reference", .str ref)]), true)
          | none => (condition, false)

/-- The MedicationStatement effective-date resolution: `effectiveDateTime or
effectivePeriod.start`, falling back to `dateAsserted`. -/
def medicationEffectiveString (medication : JVal) : Option String :=
  let effective := pyOrStr (medication.getStr? "effectiveDateTime")
      ((medication.getD "effectivePeriod" (.obj [])).getStr? "start")
  let effective := match truthyStr effective with
    | none => medication.getStr? "dateAsserted"
    | some s => some s
  truthyStr effective

/-- Embedding of `_link_medication_to_encounter`; on success the reference is
stored in the R4 `context` field. -/
def link_medication_to_encounter (medication : JVal) (medications : List MedicationEntry)
    (ccda_to_fhir : List (String × String))
    (encounter_date_to_ref : List (PyDate × String)) : JVal × Bool :=
  let _ := medications
  let _ := ccda_to_fhir
  match medicationEffectiveString medication with
  | none => (medication, false)
  | some effective =>
      match parse_fhir_date effective with
      | none => (medication, false)
      | some effective_date =>
          match linkLoop (sortPairs encounter_date_to_ref) effective_date none with
          | some ref => (medication.set "context" (.obj [("reference", .str ref)]), true)
          | none => (medication, false)

theorem PyDate.not_le_iff_lt {a b : PyDate} : ¬ a ≤ b ↔ b < a := by
  constructor
  · intro h
    rcases PyDate.lt_trichotomy a b with h1 | rfl | h1
    · exact absurd (PyDate.le_of_lt h1) h
    · exact absurd (PyDate.le_refl a) h
    · exact h1
  · intro h hle
    exact absurd h (PyDate.not_lt_iff_le.mpr hle)

theorem linkLoop_all_gt {t : PyDate} :
    ∀ {l : List (PyDate × String)} (acc : Option String),
      (∀ p ∈ l, t < p.1) → linkLoop l t acc = acc := by
  intro l
  induction l with
  | nil => intro acc _; rfl
  | cons q rest ih =>
      intro acc hgt
      obtain ⟨d, r⟩ := q
      have hd : t < d := hgt (d, r) (List.mem_cons_self _ _)
      have hne : ¬ (d = t) := by
        intro h; rw [h] at hd; exact PyDate.lt_irrefl t hd
      unfold linkLoop
      rw [if_neg hne, if_neg (PyDate.lt_asymm hd)]
      exact ih acc (fun p hp => hgt p (List.mem_cons_of_mem _ hp))

theorem linkLoop_finds_max {t d : PyDate} {r : String} :
    ∀ {l : List (PyDate × String)} (acc : Option String),
      (l.map Prod.fst).Pairwise (· < ·) →
      (d, r) ∈ l → d ≤ t →
      (∀ p ∈ l, p.1 ≤ t → p.1 ≤ d) →
      linkLoop l t acc = some r := by
  intro l
  induction l with
  | nil => intro acc _ hmem; simp at hmem
  | cons q rest ih =>
      intro acc hpw hmem hle hmax
      obtain ⟨d0, r0⟩ := q
      have hpwc : (d0 :: rest.map Prod.fst).Pairwise (· < ·) := by simpa using hpw
      have hpw' : (∀ k ∈ rest.map Prod.fst, d0 < k) ∧
          (rest.map Prod.fst).Pairwise (· < ·) := List.pairwise_cons.mp hpwc
      unfold linkLoop
      by_cases h0 : d0 = t
      · rw [if_pos h0]
        -- the head has the target date exactly, so it is the chosen pair
        rcases List.mem_cons.mp hmem with heq | hrest
        · simp at heq; exact congrArg some heq.2.symm
        · exfalso
          have hgt : d0 < d := hpw'.1 d (List.mem_map.mpr ⟨(d, r), hrest, rfl⟩)
          exact PyDate.not_le_iff_lt.mpr (h0 ▸ hgt) hle
      · rw [if_neg h0]
        by_cases h1 : d0 < t
        · rw [if_pos h1]
          rcases List.mem_cons.mp hmem with heq | hrest
          · -- the chosen pair is the head; everything later is past the target
            have hd : d = d0 := by simpa using congrArg Prod.fst heq
            have hr : r = r0 := by simpa using congrArg Prod.snd heq
            subst hd; subst hr
            refine linkLoop_all_gt _ (fun p hp => ?_)
            have hgt : d < p.1 := hpw'.1 p.1 (List.mem_map.mpr ⟨p, hp, rfl⟩)
            by_cases hpt : p.1 ≤ t
            · exact absurd (PyDate.lt_of_lt_of_le hgt (hmax p (List.mem_cons_of_mem _ hp) hpt))
                (PyDate.lt_irrefl d)
            · exact PyDate.not_le_iff_lt.mp hpt
          · exact ih _ hpw'.2 hrest hle
              (fun p hp hpt => hmax p (List.mem_cons_of_mem _ hp) hpt)
        · exfalso
          have htd0 : t < d0 := by
            rcases PyDate.lt_trichotomy d0 t with h | h | h
            · exact absurd h h1
            · exact absurd h h0
            · exact h
          rcases List.mem_cons.mp hmem with heq | hrest
          · have hd : d = d0 := by simpa using congrArg Prod.fst heq
            exact PyDate.not_le_iff_lt.mpr (hd ▸ htd0) hle
          · have hgt : d0 < d := hpw'.1 d (List.mem_map.mpr ⟨(d, r), hrest, rfl⟩)
            exact PyDate.not_le_iff_lt.mpr (PyDate.lt_trans htd0 hgt) hle

theorem mem_insertPair {x p : PyDate × String} :
    ∀ {l : List (PyDate × String)}, x ∈ insertPair p l ↔ x = p ∨ x ∈ l := by
  intro l
  induction l with
  | nil => simp [insertPair]
  | cons q rest ih =>
      unfold insertPair
      by_cases h : p.1 < q.1
      · rw [if_pos h]; simp only [List.mem_cons]
      · rw [if_neg h]; simp only [List.mem_cons, ih]; tauto

theorem mem_sortPairs {x : PyDate × String} :
    ∀ {l : List (PyDate × String)}, x ∈ sortPairs l ↔ x ∈ l := by
  intro l
  induction l with
  | nil => simp [sortPairs]
  | cons q rest ih =>
      unfold sortPairs at *
      simp only [List.foldr_cons, mem_insertPair, List.mem_cons, ih]

theorem mem_keys_insertPair {k : PyDate} {p : PyDate × String} {l : List (PyDate × String)} :
    k ∈ (insertPair p l).map Prod.fst ↔ k = p.1 ∨ k ∈ l.map Prod.fst := by
  simp only [List.mem_map]
  constructor
  · rintro ⟨x, hx, rfl⟩
    rcases mem_insertPair.mp hx with rfl | hx
    · exact Or.inl rfl
    · exact Or.inr ⟨x, hx, rfl⟩
  · rintro (rfl | ⟨x, hx, rfl⟩)
    · exact ⟨p, mem_insertPair.mpr (Or.inl rfl), rfl⟩
    · exact ⟨x, mem_insertPair.mpr (Or.inr hx), rfl⟩

theorem pairwise_keys_insertPair {p : PyDate × String} :
    ∀ {l : List (PyDate × String)},
      (l.map Prod.fst).Pairwise (· < ·) → p.1 ∉ l.map Prod.fst →
      ((insertPair p l).map Prod.fst).Pairwise (· < ·) := by
  intro l
  induction l with
  | nil => intro _ _; simp [insertPair]
  | cons q rest ih =>
      intro hpw hnotin
      have hpwc : (q.1 :: rest.map Prod.fst).Pairwise (· < ·) := by simpa using hpw
      have hpw' : (∀ k ∈ rest.map Prod.fst, q.1 < k) ∧
          (rest.map Prod.fst).Pairwise (· < ·) := List.pairwise_cons.mp hpwc
      unfold insertPair
      by_cases h : p.1 < q.1
      · rw [if_pos h]
        simp only [List.map_cons]
        refine List.pairwise_cons.mpr ⟨?_, hpwc⟩
        intro k hk
        rcases List.mem_cons.mp hk with rfl | hk
        · exact h
        · exact PyDate.lt_trans h (hpw'.1 k hk)
      · rw [if_neg h]
        simp only [List.map_cons]
        have hne : p.1 ≠ q.1 := fun heq => hnotin (by simp [heq])
        have hq : q.1 < p.1 := by
          rcases PyDate.lt_trichotomy p.1 q.1 with h1 | h1 | h1
          · exact absurd h1 h
          · exact absurd h1 hne
          · exact h1
        refine List.pairwise_cons.mpr ⟨?_, ih hpw'.2 (fun hmem => hnotin (by simp [hmem]))⟩
        intro k hk
        rcases mem_keys_insertPair.mp hk with rfl | hk
        · exact hq
        · exact hpw'.1 k hk

theorem mem_keys_sortPairs {k : PyDate} :
    ∀ {l : List (PyDate × String)}, k ∈ (sortPairs l).map Prod.fst ↔ k ∈ l.map Prod.fst := by
  intro l
  simp only [List.mem_map]
  constructor
  · rintro ⟨x, hx, rfl⟩; exact ⟨x, mem_sortPairs.mp hx, rfl⟩
  · rintro ⟨x, hx, rfl⟩; exact ⟨x, mem_sortPairs.mpr hx, rfl⟩

theorem pairwise_keys_sortPairs :
    ∀ {l : List (PyDate × String)}, (l.map Prod.fst).Nodup →
      ((sortPairs l).map Prod.fst).Pairwise (· < ·) := by
  intro l
  induction l with
  | nil => intro _; simp [sortPairs]
  | cons q rest ih =>
      intro hnd
      have hndc : (q.1 :: rest.map Prod.fst).Nodup := by simpa using hnd
      have hnd' : q.1 ∉ rest.map Prod.fst ∧ (rest.map Prod.fst).Nodup :=
        List.nodup_cons.mp hndc
      show ((insertPair q (sortPairs rest)).map Prod.fst).Pairwise (· < ·)
      exact pairwise_keys_insertPair (ih hnd'.2)
        (fun hmem => hnd'.1 (mem_keys_sortPairs.mp hmem))

/-- Claim C7: for a Condition (resp. MedicationStatement) with a parseable
onset (resp. effective) date, the linker sets its encounter (resp. `context`)
back-reference to the encounter whose date is the greatest encounter date on or
before that date — the exact-date encounter when one exists, else the latest
strictly-prior one — and leaves the resource unchanged (and reports no link)
when the date is missing, unparseable, or earlier than every encounter date. -/
theorem C7_nearest_prior_or_exact_linking
    (condition medication : JVal) (problems : List ProblemEntry)
    (medications : List MedicationEntry) (ccda_to_fhir : List (String × String))
    (encounter_date_to_ref : List (PyDate × String))
    (hnd : (encounter_date_to_ref.map Prod.fst).Nodup) :
    ((∀ s dt d r, conditionOnsetString condition = some s →
        parse_fhir_date s = some dt →
        (d, r) ∈ encounter_date_to_ref → d ≤ dt →
        (∀ p ∈ encounter_date_to_ref, p.1 ≤ dt → p.1 ≤ d) →
        link_condition_to_encounter condition problems ccda_to_fhir
            encounter_date_to_ref =
          (condition.set "encounter" (.obj [("reference", .str r)]), true)) ∧
      (∀ s dt, conditionOnsetString condition = some s →
        parse_fhir_date s = some dt →
        (∀ p ∈ encounter_date_to_ref, ¬ p.1 ≤ dt) →
        link_condition_to_encounter condition problems ccda_to_fhir
            encounter_date_to_ref = (condition, false)) ∧
      (conditionOnsetString condition = none →
        link_condition_to_encounter condition problems ccda_to_fhir
            encounter_date_to_ref = (condition, false)) ∧
      (∀ s, conditionOnsetString condition = some s → parse_fhir_date s = none →
        link_condition_to_encounter condition problems ccda_to_fhir
            encounter_date_to_ref = (condition, false))) ∧
    ((∀ s dt d r, medicationEffectiveString medication = some s →
        parse_fhir_date s = some dt →
        (d, r) ∈ encounter_date_to_ref → d ≤ dt →
        (∀ p ∈ encounter_date_to_ref, p.1 ≤ dt → p.1 ≤ d) →
        link_medication_to_encounter medication medications ccda_to_fhir
            encounter_date_to_ref =
          (medication.set "context" (.obj [("reference", .str r)]), true)) ∧
      (∀ s dt, medicationEffectiveString medication = some s →
        parse_fhir_date s = some dt →
        (∀ p ∈ encounter_date_to_ref, ¬ p.1 ≤ dt) →
        link_medication_to_encounter medication medications ccda_to_fhir
            encounter_date_to_ref = (medication, false)) ∧
      (medicationEffectiveString medication = none →
        link_medication_to_encounter medication medications ccda_to_fhir
            encounter_date_to_ref = (medication, false)) ∧
      (∀ s, medicationEffectiveString medication = some s → parse_fhir_date s = none →
        link_medication_to_encounter medication medications ccda_to_fhir
            encounter_date_to_ref = (medication, false))) := by
  have hfind : ∀ dt d r, (d, r) ∈ encounter_date_to_ref → d ≤ dt →
      (∀ p ∈ encounter_date_to_ref, p.1 ≤ dt → p.1 ≤ d) →
      linkLoop (sortPairs encounter_date_to_ref) dt none = some r := by
    intro dt d r hmem hle hmax
    exact linkLoop_finds_max none (pairwise_keys_sortPairs hnd)
      (mem_sortPairs.mpr hmem) hle
      (fun p hp hpt => hmax p (mem_sortPairs.mp hp) hpt)
  have hnone : ∀ dt, (∀ p ∈ encounter_date_to_ref, ¬ p.1 ≤ dt) →
      linkLoop (sortPairs encounter_date_to_ref) dt none = none := by
    intro dt hall
    exact linkLoop_all_gt none
      (fun p hp => PyDate.not_le_iff_lt.mp (hall p (mem_sortPairs.mp hp)))
  refine ⟨⟨?_, ?_, ?_, ?_⟩, ?_, ?_, ?_, ?_⟩
  · intro s dt d r hs hdt hmem hle hmax
    unfold link_condition_to_encounter
    simp only [hs, hdt, hfind dt d r hmem hle hmax]
  · intro s dt hs hdt hall
    unfold link_condition_to_encounter
    simp only [hs, hdt, hnone dt hall]
  · intro hs
    unfold link_condition_to_encounter
    simp only [hs]
  · intro s hs hdt
    unfold link_condition_to_encounter
    simp only [hs, hdt]
  · intro s dt d r hs hdt hmem hle hmax
    unfold link_medication_to_encounter
    simp only [hs, hdt, hfind dt d r hmem hle hmax]
  · intro s dt hs hdt hall
    unfold link_medication_to_encounter
    simp only [hs, hdt, hnone dt hall]
  · intro hs
    unfold link_medication_to_encounter
    simp only [hs]
  · intro s hs hdt
    unfold link_medication_to_encounter
    simp only [hs, hdt]

/-- Witness for C7: a Condition with onset 2023-03-25 against encounters on
2023-03-21 and 2023-03-28 links to the 2023-03-21 encounter (latest strictly
prior), and a Condition with no onset at all is left unchanged. -/
theorem C7_nearest_prior_or_exact_linking_witness :
    let cond : JVal := .obj [("resourceType", .str "Condition"),
      ("onsetDateTime", .str "2023-03-25T10:00:00Z")]
    let med : JVal := .obj [("resourceType", .str "MedicationStatement")]
    let encs : List (PyDate × String) :=
      [(⟨2023, 3, 21⟩, "Encounter/a"), (⟨2023, 3, 28⟩, "Encounter/b")]
    (encs.map Prod.fst).Nodup ∧
    conditionOnsetString cond = some "2023-03-25T10:00:00Z" ∧
    parse_fhir_date "2023-03-25T10:00:00Z" = some ⟨2023, 3, 25⟩ ∧
    medicationEffectiveString med = none ∧
    link_condition_to_encounter cond [] [] encs =
      (cond.set "encounter" (.obj [("reference", .str "Encounter/a")]), true) ∧
    link_medication_to_encounter med [] [] encs = (med, false) := by
  intro cond med encs
  have h := C7_nearest_prior_or_exact_linking cond med [] [] [] encs (by decide)
  refine ⟨by decide, rfl, by decide, rfl, ?_, ?_⟩
  · exact h.1.1 "2023-03-25T10:00:00Z" ⟨2023, 3, 25⟩ ⟨2023, 3, 21⟩ "Encounter/a"
      rfl (by decide) (by decide) (by decide) (by decide)
  · exact h.2.2.2.1 rfl

/-! ## Small dictionary lemmas on `JVal` objects -/

theorem jlookup_jsetField_self (fs : JObj) (k : String) (v : JVal) :
    jlookup (jsetField fs k v) k = some v := by
  induction fs with
  | nil => simp [jsetField, jlookup]
  | cons kv rest ih =>
      obtain ⟨k', v'⟩ := kv
      unfold jsetField
      by_cases h : k' = k
      · rw [if_pos h]; simp [jlookup]
      · rw [if_neg h]; unfold jlookup; rw [if_neg h]; exact ih

theorem jlookup_jsetField_ne (fs : JObj) (k k' : String) (v : JVal) (h : k ≠ k') :
    jlookup (jsetField fs k v) k' = jlookup fs k' := by
  induction fs with
  | nil => simp [jsetField, jlookup, h]
  | cons kv rest ih =>
      obtain ⟨k0, v0⟩ := kv
      unfold jsetField
      by_cases h0 : k0 = k
      · rw [if_pos h0]
        unfold jlookup
        rw [if_neg h, if_neg (h0 ▸ (fun hk => h (hk ▸ rfl)) : ¬ k0 = k')]
      · rw [if_neg h0]
        unfold jlookup
        by_cases h1 : k0 = k'
        · rw [if_pos h1, if_pos h1]
        · rw [if_neg h1, if_neg h1]; exact ih

theorem jentries_set_entry {fs : JObj} (l : List JVal) :
    (match jlookup (jsetField fs "entry" (.arr l)) "entry" with
      | some (JVal.arr es) => es
      | some _ => []
      | none => []) = l := by
  rw [jlookup_jsetField_self]

/-! ## Schema-version transformer (`src/transform/r4_to_r5/bundle.py`)

The nine per-kind transformers live in sibling modules and are abstracted as a
`TransformerTable` of parameters (a transformer either returns the R5 resource
or raises, embedded as `Except.error` carrying `str(e)`); the registry's keys
are embedded literally from `RESOURCE_TRANSFORMERS`. -/

structure TransformerTable where
  patient : JVal → Except String JVal
  condition : JVal → Except String JVal
  medication_statement : JVal → Except String JVal
  allergy_intolerance : JVal → Except String JVal
  immunization : JVal → Except String JVal
  observation : JVal → Except String JVal
  encounter : JVal → Except String JVal
  composition : JVal → Except String JVal
  organization : JVal → Except String JVal

def RESOURCE_TRANSFORMERS (tf : TransformerTable) :
    String → Option (JVal → Except String JVal) := fun rt =>
  if rt = "Patient" then some tf.patient
  else if rt = "Condition" then some tf.condition
  else if rt = "MedicationStatement" then some tf.medication_statement
  else if rt = "AllergyIntolerance" then some tf.allergy_intolerance
  else if rt = "Immunization" then some tf.immunization
  else if rt = "Observation" then some tf.observation
  else if rt = "Encounter" then some tf.encounter
  else if rt = "Composition" then some tf.composition
  else if rt = "Organization" then some tf.organization
  else none

/-- `ARRAY_FIELDS` is a Python set; its iteration order is irrelevant because
the per-field updates are independent, so a fixed order is used here. -/
def ARRAY_FIELDS : List String :=
  ["identifier", "basedOn", "partOf", "category", "performer", "note"]

def normalize_array_fields (resource : JVal) : JVal :=
  ARRAY_FIELDS.foldl (fun res field =>
    match res.get? field with
    | some (JVal.arr _) => res
    | some v => res.set field (.arr [v])
    | none => res) resource

/-- The 14 counted kinds of `ResourceCounts` (`src/schemas/import_schemas.py`),
all starting at 0; `hasattr`-guarded `setattr` bumps become `bumpCount`. -/
def ResourceCounts_init : List (String × Nat) :=
  [("Patient", 0), ("Condition", 0), ("MedicationStatement", 0),
   ("AllergyIntolerance", 0), ("Immunization", 0), ("Observation", 0),
   ("Procedure", 0), ("Encounter", 0), ("Composition", 0),
   ("DiagnosticReport", 0), ("DocumentReference", 0), ("Practitioner", 0),
   ("Organization", 0), ("Medication", 0)]

def bumpCount (counts : List (String × Nat)) (rt : String) : List (String × Nat) :=
  counts.map (fun kv => if kv.1 = rt then (kv.1, kv.2 + 1) else kv)

/-- Python `s.startswith(p)` (character-list based, so that concrete
evaluation reduces in the kernel, unlike `String.startsWith`). -/
def pyStartsWith (s p : String) : Bool := p.data.isPrefixOf s.data

/-- `_transform_request`: rewrite the request url's resource-type piece when
the transformer changed the resource type. -/
def transform_request (request : JVal) (r4_type : String) (r5_type : Option String) :
    JVal :=
  match truthyStr r5_type with
  | some r5 =>
      if r4_type = r5 then request
      else
        let url := (request.getStr? "url").getD ""
        if pyStartsWith url r4_type then
          request.set "url" (.str (r5 ++ String.mk (url.data.drop r4_type.data.length)))
        else request
  | none => request

def jentries (bundle : JVal) : List JVal :=
  match bundle.getD "entry" (.arr []) with
  | .arr l => l
  | _ => []

/-- One iteration of `transform_bundle`'s entry loop: returns the produced R5
entries (none when the entry is dropped), the updated counts, and the warnings
appended. -/
def transform_entry (tf : TransformerTable) (counts : List (String × Nat))
    (entry : JVal) : List JVal × List (String × Nat) × List String :=
  let resource := entry.getD "resource" (.obj [])
  match truthyStr (resource.getStr? "resourceType") with
  | none => ([], counts, ["Entry missing resourceType, skipping"])
  | some resource_type =>
      match RESOURCE_TRANSFORMERS tf resource_type with
      | some transformer =>
          match transformer resource with
          | .ok r5_resource =>
              let r5_resource := normalize_array_fields r5_resource
              let count_type := (r5_resource.getStr? "resourceType").getD resource_type
              let counts := bumpCount counts count_type
              let r5_entry := JVal.obj
                [("fullUrl", entry.getD "fullUrl" .null), ("resource", r5_resource)]
              let r5_entry :=
                if entry.hasKey "request" then
                  r5_entry.set "request" (transform_request
                    (entry.getD "request" (.obj [])) resource_type
                    (r5_resource.getStr? "resourceType"))
                else r5_entry
              ([r5_entry], counts, [])
          | .error e =>
              ([], counts, ["Failed to transform " ++ resource_type ++ ": " ++ e])
      | none =>
          let normalized_resource := normalize_array_fields resource
          ([entry.set "resource" normalized_resource], bumpCount counts resource_type, [])

def transformEntries (tf : TransformerTable) :
    List JVal → List JVal × List (String × Nat) × List String →
      List JVal × List (String × Nat) × List String
  | [], acc => acc
  | entry :: rest, (es, cs, ws) =>
      let (es', cs', ws') := transform_entry tf cs entry
      transformEntries tf rest (es ++ es', cs', ws ++ ws')

/-! The orphaned-encounter-reference cleanup (`_clean_orphaned_encounter_refs`). -/

/-- Python `set.add` on an insertion-ordered set (only membership and size are
consumed). -/
def addToSet (s : List String) (x : String) : List String :=
  if s.contains x then s else s ++ [x]

def dictSetStr (d : List (String × String)) (k v : String) : List (String × String) :=
  match d with
  | [] => [(k, v)]
  | (k', v') :: rest => if k' = k then (k, v) :: rest else (k', v') :: dictSetStr rest k v

def lookupStr (d : List (String × String)) (k : String) : Option String :=
  match d with
  | [] => none
  | (k', v) :: rest => if k' = k then some v else lookupStr rest k

/-- Python `s[:n]`. -/
def pyStrTake (s : String) (n : Nat) : String := ⟨s.data.take n⟩

structure EncRefMaps where
  enc_id_to_fullurl : List (String × String)
  valid_encounter_refs : List String
  encounter_count : Nat
  warnings : List String

/-- First phase of the cleanup: collect Encounter id→fullUrl mappings and the
set of valid encounter references. -/
def collectEncounterMaps (entries : List JVal) : EncRefMaps :=
  entries.foldl (fun st entry =>
    let resource := entry.getD "resource" (.obj [])
    if resource.getStr? "resourceType" = some "Encounter" then
      let st := { st with encounter_count := st.encounter_count + 1 }
      let enc_id := truthyStr (resource.getStr? "id")
      let full_url := truthyStr (entry.getStr? "fullUrl")
      match full_url with
      | some fu =>
          let st := { st with valid_encounter_refs := addToSet st.valid_encounter_refs fu }
          match enc_id with
          | some eid =>
              let m := dictSetStr (dictSetStr st.enc_id_to_fullurl eid fu)
                ("Encounter/" ++ eid) fu
              { st with enc_id_to_fullurl := m }
          | none => st
      | none =>
          match enc_id with
          | some eid =>
              { st with
                valid_encounter_refs :=
                  addToSet st.valid_encounter_refs ("Encounter/" ++ eid),
                warnings := st.warnings ++
                  ["Encounter " ++ eid ++ " has no fullUrl - will use Encounter/id format"] }
          | none => st
    else st)
    ⟨[], [], 0, []⟩

structure CleanState where
  converted_count : Nat
  orphaned_count : Nat
  total_refs_checked : Nat
  refs_by_type : List (String × List String)

def pushRefByType (d : List (String × List String)) (k v : String) :
    List (String × List String) :=
  match d with
  | [] => [(k, [v])]
  | (k', vs) :: rest =>
      if k' = k then (k', vs ++ [v]) :: rest else (k', vs) :: pushRefByType rest k v

/-- `process_reference`: returns the (possibly converted) reference object,
whether the caller must delete it, and the updated counters. -/
def process_reference (maps : EncRefMaps) (st : CleanState) (ref_value : JVal)
    (resource_type field : String) : JVal × Bool × CleanState :=
  let ref_str := (ref_value.getStr? "reference").getD ""
  if ref_str = "" then (ref_value, false, st)
  else
    let st :=
      if pyStartsWith ref_str "Encounter/" || pyStartsWith ref_str "urn:uuid:" then
        let rbt := pushRefByType st.refs_by_type (resource_type ++ "." ++ field)
          (pyStrTake ref_str 50)
        { st with total_refs_checked := st.total_refs_checked + 1, refs_by_type := rbt }
      else st
    match lookupStr maps.enc_id_to_fullurl ref_str, pyStartsWith ref_str "Encounter/" with
    | some mapped, true =>
        (ref_value.set "reference" (.str mapped), false,
         { st with converted_count := st.converted_count + 1 })
    | _, _ =>
        if pyStartsWith ref_str "Encounter/" || pyStartsWith ref_str "urn:uuid:" then
          if maps.valid_encounter_refs.contains ref_str then (ref_value, false, st)
          else (ref_value, true, { st with orphaned_count := st.orphaned_count + 1 })
        else (ref_value, false, st)

/-- The cleanup's per-entry body. Entries whose resource is an Encounter are
skipped outright (`continue`); the trailing `partOf` branch from the source is
kept verbatim even though its `resource_type == "Encounter"` guard can no
longer hold at that point. -/
def cleanEntry (maps : EncRefMaps) (st : CleanState) (entry : JVal) :
    JVal × CleanState :=
  let resource := entry.getD "resource" (.obj [])
  let rt := resource.getStr? "resourceType"
  if rt = some "Encounter" then (entry, st)
  else
    let rtDisplay := rt.getD "None"
    -- top-level "encounter" and "context" fields
    let (resource, st) := (["encounter", "context"].foldl
      (fun (acc : JVal × CleanState) field =>
        let (res, st) := acc
        match res.get? field with
        | some (JVal.obj fs) =>
            let (ref', del, st') := process_reference maps st (.obj fs) rtDisplay field
            if del then (res.del field, st') else (res.set field ref', st')
        | _ => acc) (resource, st))
    -- nested context.encounter (single reference or list of references)
    let (resource, st) :=
      match resource.get? "context" with
      | some (JVal.obj ctxFields) =>
          (match jlookup ctxFields "encounter" with
           | some (JVal.arr items) =>
               let (items', st') := items.foldl
                 (fun (acc : List JVal × CleanState) item =>
                   let (done, st) := acc
                   match item with
                   | JVal.obj fs =>
                       let (ref', del, st') := process_reference maps st (.obj fs)
                         rtDisplay "context.encounter"
                       if del then (done, st') else (done ++ [ref'], st')
                   | _ => (done ++ [item], st)) ([], st)
               (resource.set "context" (.obj (jsetField ctxFields "encounter" (.arr items'))), st')
           | some (JVal.obj fs) =>
               let (ref', del, st') := process_reference maps st (.obj fs)
                 rtDisplay "context.encounter"
               if del then
                 (resource.set "context" (.obj (jdelField ctxFields "encounter")), st')
               else
                 (resource.set "context" (.obj (jsetField ctxFields "encounter" ref')), st')
           | _ => (resource, st))
      | _ => (resource, st)
    -- Encounter.partOf: unreachable, the loop skipped Encounter resources above
    let (resource, st) :=
      if rt = some "Encounter" then
        match resource.get? "partOf" with
        | some (JVal.obj fs) =>
            let (ref', del, st') := process_reference maps st (.obj fs) rtDisplay "partOf"
            if del then (resource.del "partOf", st') else (resource.set "partOf" ref', st')
        | _ => (resource, st)
      else (resource, st)
    (if entry.hasKey "resource" then entry.set "resource" resource else entry, st)

def cleanEntries (maps : EncRefMaps) :
    List JVal → List JVal × CleanState → List JVal × CleanState
  | [], acc => acc
  | entry :: rest, (es, st) =>
      let (e', st') := cleanEntry maps st entry
      cleanEntries maps rest (es ++ [e'], st')

def clean_orphaned_encounter_refs (bundle : JVal) : JVal × List String :=
  let maps := collectEncounterMaps (jentries bundle)
  let warnings := maps.warnings ++
    ["Encounter ref cleanup: " ++ pyNatRepr maps.encounter_count ++ " encounters, " ++
      pyNatRepr maps.valid_encounter_refs.length ++ " valid refs, " ++
      pyNatRepr (maps.enc_id_to_fullurl.length / 2) ++ " ID mappings"]
  let (entries', st) := cleanEntries maps (jentries bundle) ([], ⟨0, 0, 0, []⟩)
  let warnings := warnings ++
    ["Checked " ++ pyNatRepr st.total_refs_checked ++ " encounter refs"]
  let warnings := warnings ++ st.refs_by_type.map (fun kv =>
    "  " ++ kv.1 ++ ": " ++ pyNatRepr kv.2.length ++ " refs (sample: " ++
      (kv.2.headD "none") ++ ")")
  let warnings := if st.converted_count ≠ 0 then warnings ++
    ["Converted " ++ pyNatRepr st.converted_count ++
      " encounter references to fullUrl format"] else warnings
  let warnings := if st.orphaned_count ≠ 0 then warnings ++
    ["Removed " ++ pyNatRepr st.orphaned_count ++ " orphaned encounter references"]
    else warnings
  (bundle.set "entry" (.arr entries'), warnings)

/-- The R5 bundle skeleton built by `transform_bundle` before cleanup: literal
resourceType, the source bundle type (default "collection"), the produced
entries, and the preserved id/timestamp metadata. -/
def buildR5Bundle (r4_bundle : JVal) (r5_entries : List JVal) : JVal :=
  let r5_bundle := JVal.obj [("resourceType", .str "Bundle"),
    ("type", r4_bundle.getD "type" (.str "collection")),
    ("entry", .arr r5_entries)]
  let r5_bundle :=
    if r4_bundle.hasKey "id" then r5_bundle.set "id" (r4_bundle.getD "id" .null)
    else r5_bundle
  if r4_bundle.hasKey "timestamp" then
    r5_bundle.set "timestamp" (r4_bundle.getD "timestamp" .null)
  else r5_bundle

/-- Embedding of `transform_bundle`: per-entry dispatch through the registry,
bundle reconstruction, then the orphaned-encounter-reference cleanup. -/
def transform_bundle (tf : TransformerTable) (r4_bundle : JVal) :
    JVal × List (String × Nat) × List String :=
  let (r5_entries, counts, warnings) :=
    transformEntries tf (jentries r4_bundle) ([], ResourceCounts_init, [])
  let r5_bundle := buildR5Bundle r4_bundle r5_entries
  let (r5_bundle, orphan_warnings) := clean_orphaned_encounter_refs r5_bundle
  (r5_bundle, counts, warnings ++ orphan_warnings)

theorem jentries_obj_set (fs : JObj) (l : List JVal) :
    jentries (JVal.obj (jsetField fs "entry" (.arr l))) = l := by
  unfold jentries JVal.getD JVal.get?
  simp [jlookup_jsetField_self]

theorem jentries_non_obj (bundle : JVal) (h : ∀ fs, bundle ≠ .obj fs) :
    jentries bundle = [] := by
  unfold jentries JVal.getD JVal.get?
  match bundle with
  | .obj fs => exact absurd rfl (h fs)
  | .str s => rfl
  | .num q => rfl
  | .bool b => rfl
  | .null => rfl
  | .arr l => rfl

theorem cleanEntry_encounter (maps : EncRefMaps) (st : CleanState) (entry : JVal)
    (henc : (entry.getD "resource" (.obj [])).getStr? "resourceType" = some "Encounter") :
    cleanEntry maps st entry = (entry, st) := by
  unfold cleanEntry
  simp only [henc, if_pos]

theorem cleanEntries_acc (maps : EncRefMaps) :
    ∀ (entries : List JVal) (es : List JVal) (st : CleanState),
      cleanEntries maps entries (es, st) =
        (es ++ (cleanEntries maps entries ([], st)).1,
         (cleanEntries maps entries ([], st)).2) := by
  intro entries
  induction entries with
  | nil => intro es st; simp [cleanEntries]
  | cons hd tl ih =>
      intro es st
      unfold cleanEntries
      rcases hce : cleanEntry maps st hd with ⟨e', st'⟩
      simp only
      rw [ih (es ++ [e']) st', ih ([] ++ [e']) st']
      simp

theorem cleanEntries_nth_encounter (maps : EncRefMaps) :
    ∀ (entries : List JVal) (st : CleanState) (i : Nat) (entry : JVal),
      entries[i]? = some entry →
      (entry.getD "resource" (.obj [])).getStr? "resourceType" = some "Encounter" →
      ((cleanEntries maps entries ([], st)).1)[i]? = some entry := by
  intro entries
  induction entries with
  | nil => intro st i entry h _; simp at h
  | cons hd tl ih =>
      intro st i entry h henc
      cases i with
      | zero =>
          have h0 : hd = entry := by simpa using h
          unfold cleanEntries
          rw [cleanEntry_encounter maps st hd (by rw [h0]; exact henc)]
          simp only
          rw [cleanEntries_acc maps tl ([] ++ [hd]) st]
          simp [h0]
      | succ n =>
          have h1 : tl[n]? = some entry := by simpa using h
          unfold cleanEntries
          rcases hce : cleanEntry maps st hd with ⟨e', st'⟩
          simp only
          rw [cleanEntries_acc maps tl ([] ++ [e']) st']
          simpa using ih st' n entry h1 henc

/-- Claim C10: the orphaned-encounter-reference cleanup never modifies an
Encounter resource: the per-entry loop skips every entry whose resourceType is
Encounter, so the `partOf` repair branch (guarded by that same resourceType) is
unreachable and an Encounter's `partOf` reference survives cleanup verbatim,
whether or not its target exists in the bundle. -/
theorem C10_cleanup_never_modifies_encounters (bundle : JVal) (i : Nat) (entry : JVal)
    (hi : (jentries bundle)[i]? = some entry)
    (henc : (entry.getD "resource" (.obj [])).getStr? "resourceType" = some "Encounter") :
    (jentries (clean_orphaned_encounter_refs bundle).1)[i]? = some entry := by
  match hb : bundle with
  | .obj fs =>
      have hent : jentries (clean_orphaned_encounter_refs (.obj fs)).1 =
          (cleanEntries (collectEncounterMaps (jentries (.obj fs)))
            (jentries (.obj fs)) ([], ⟨0, 0, 0, []⟩)).1 := by
        unfold clean_orphaned_encounter_refs
        simp only [JVal.set]
        exact jentries_obj_set fs _
      rw [hent]
      exact cleanEntries_nth_encounter _ _ _ i entry hi henc
  | .str s => rw [jentries_non_obj (.str s) (by intro fs h; cases h)] at hi; simp at hi
  | .num q => rw [jentries_non_obj (.num q) (by intro fs h; cases h)] at hi; simp at hi
  | .bool b => rw [jentries_non_obj (.bool b) (by intro fs h; cases h)] at hi; simp at hi
  | .null => rw [jentries_non_obj .null (by intro fs h; cases h)] at hi; simp at hi
  | .arr l => rw [jentries_non_obj (.arr l) (by intro fs h; cases h)] at hi; simp at hi

/-- Witness for C10: an Encounter whose `partOf` points at an Encounter absent
from the bundle passes through the cleanup unchanged, dangling reference
included. -/
theorem C10_cleanup_never_modifies_encounters_witness :
    let encEntry : JVal := .obj [("fullUrl", .str "urn:uuid:e1"),
      ("resource", .obj [("resourceType", .str "Encounter"), ("id", .str "e1"),
        ("partOf", .obj [("reference", .str "Encounter/missing")])])]
    let bundle : JVal := .obj [("type", .str "collection"), ("entry", .arr [encEntry])]
    (jentries bundle)[0]? = some encEntry ∧
    (encEntry.getD "resource" (.obj [])).getStr? "resourceType" = some "Encounter" ∧
    (jentries (clean_orphaned_encounter_refs bundle).1)[0]? = some encEntry := by
  intro encEntry bundle
  refine ⟨rfl, rfl, C10_cleanup_never_modifies_encounters bundle 0 encEntry rfl rfl⟩

theorem transform_bundle_proj (tf : TransformerTable) (b : JVal) :
    transform_bundle tf b =
      ((clean_orphaned_encounter_refs (buildR5Bundle b
          (transformEntries tf (jentries b) ([], ResourceCounts_init, [])).1)).1,
       (transformEntries tf (jentries b) ([], ResourceCounts_init, [])).2.1,
       (transformEntries tf (jentries b) ([], ResourceCounts_init, [])).2.2 ++
         (clean_orphaned_encounter_refs (buildR5Bundle b
           (transformEntries tf (jentries b) ([], ResourceCounts_init, [])).1)).2) :=
  rfl

theorem transformEntries_acc (tf : TransformerTable) :
    ∀ (entries : List JVal) (es : List JVal) (cs : List (String × Nat))
      (ws : List String),
      transformEntries tf entries (es, cs, ws) =
        (es ++ (transformEntries tf entries ([], cs, [])).1,
         (transformEntries tf entries ([], cs, [])).2.1,
         ws ++ (transformEntries tf entries ([], cs, [])).2.2) := by
  intro entries
  induction entries with
  | nil => intro es cs ws; simp [transformEntries]
  | cons hd tl ih =>
      intro es cs ws
      unfold transformEntries
      rcases hstep : transform_entry tf cs hd with ⟨es', cs', ws'⟩
      simp only
      rw [ih (es ++ es') cs' (ws ++ ws'), ih ([] ++ es') cs' ([] ++ ws')]
      simp

theorem transformEntries_cons (tf : TransformerTable) (hd : JVal) (tl : List JVal)
    (es : List JVal) (cs : List (String × Nat)) (ws : List String) :
    transformEntries tf (hd :: tl) (es, cs, ws) =
      transformEntries tf tl (es ++ (transform_entry tf cs hd).1,
        (transform_entry tf cs hd).2.1, ws ++ (transform_entry tf cs hd).2.2) := rfl

theorem transformEntries_append (tf : TransformerTable) :
    ∀ (l₁ l₂ : List JVal) (acc : List JVal × List (String × Nat) × List String),
      transformEntries tf (l₁ ++ l₂) acc =
        transformEntries tf l₂ (transformEntries tf l₁ acc) := by
  intro l₁
  induction l₁ with
  | nil => intro l₂ acc; simp [transformEntries]
  | cons hd tl ih =>
      intro l₂ acc
      rcases acc with ⟨es, cs, ws⟩
      rw [List.cons_append, transformEntries_cons, transformEntries_cons, ih]

theorem jget_obj_set_ne (fs : JObj) (k k' : String) (v : JVal) (h : k ≠ k') :
    (JVal.obj (jsetField fs k v)).get? k' = (JVal.obj fs).get? k' :=
  jlookup_jsetField_ne fs k k' v h

theorem buildR5Bundle_set_entry (fs : JObj) (v : JVal) (es : List JVal) :
    buildR5Bundle ((JVal.obj fs).set "entry" v) es = buildR5Bundle (.obj fs) es := by
  show buildR5Bundle (JVal.obj (jsetField fs "entry" v)) es = _
  unfold buildR5Bundle JVal.getD JVal.hasKey
  rw [jget_obj_set_ne fs "entry" "type" v (by decide),
    jget_obj_set_ne fs "entry" "id" v (by decide),
    jget_obj_set_ne fs "entry" "timestamp" v (by decide)]

theorem jentries_set_entry_obj (fs : JObj) (l : List JVal) :
    jentries ((JVal.obj fs).set "entry" (.arr l)) = l := by
  show jentries (JVal.obj (jsetField fs "entry" (.arr l))) = l
  exact jentries_obj_set fs l

/-- Claim C5, amended: a per-kind transformer failure is isolated — the failing
entry contributes nothing to the output bundle or counts (the result is the
same as if the entry had not been in the input), a warning naming the resource
type is recorded, and all other entries are still processed; an entry whose
kind has no registered transformer passes the transform stage unchanged apart
from array-field normalization, though the subsequent orphaned-encounter
cleanup may still rewrite or drop a dangling encounter reference it carries. -/
theorem C5_transform_failure_isolation (tf : TransformerTable) (fs : JObj)
    (l₁ l₂ : List JVal) (bad : JVal) (rt e : String) (f : JVal → Except String JVal)
    (hsplit : jentries (.obj fs) = l₁ ++ bad :: l₂)
    (hrt : truthyStr ((bad.getD "resource" (.obj [])).getStr? "resourceType") = some rt)
    (htr : RESOURCE_TRANSFORMERS tf rt = some f)
    (herr : f (bad.getD "resource" (.obj [])) = .error e) :
    ((transform_bundle tf (.obj fs)).1 =
        (transform_bundle tf ((JVal.obj fs).set "entry" (.arr (l₁ ++ l₂)))).1 ∧
      (transform_bundle tf (.obj fs)).2.1 =
        (transform_bundle tf ((JVal.obj fs).set "entry" (.arr (l₁ ++ l₂)))).2.1 ∧
      ("Failed to transform " ++ rt ++ ": " ++ e) ∈
        (transform_bundle tf (.obj fs)).2.2) ∧
    (∀ (cs : List (String × Nat)) (entry : JVal) (rt' : String),
      truthyStr ((entry.getD "resource" (.obj [])).getStr? "resourceType") = some rt' →
      RESOURCE_TRANSFORMERS tf rt' = none →
      transform_entry tf cs entry =
        ([entry.set "resource" (normalize_array_fields (entry.getD "resource" (.obj [])))],
         bumpCount cs rt', [])) := by
  have hstep : ∀ cs, transform_entry tf cs bad =
      ([], cs, ["Failed to transform " ++ rt ++ ": " ++ e]) := by
    intro cs
    unfold transform_entry
    simp only [hrt, htr, herr]
  have hkey : ∀ (es : List JVal) (cs : List (String × Nat)) (ws : List String),
      transformEntries tf (bad :: l₂) (es, cs, ws) =
        transformEntries tf l₂
          (es, cs, ws ++ ["Failed to transform " ++ rt ++ ": " ++ e]) := by
    intro es cs ws
    rw [transformEntries_cons, hstep cs]
    simp only [List.append_nil]
  -- compare both runs of the entry loop
  have hTE1 : transformEntries tf (jentries (.obj fs)) ([], ResourceCounts_init, []) =
      transformEntries tf (bad :: l₂)
        (transformEntries tf l₁ ([], ResourceCounts_init, [])) := by
    rw [hsplit, transformEntries_append]
  have hTE2 : transformEntries tf (jentries ((JVal.obj fs).set "entry" (.arr (l₁ ++ l₂))))
        ([], ResourceCounts_init, []) =
      transformEntries tf l₂ (transformEntries tf l₁ ([], ResourceCounts_init, [])) := by
    rw [jentries_set_entry_obj, transformEntries_append]
  rcases hmid : transformEntries tf l₁ ([], ResourceCounts_init, []) with ⟨esm, csm, wsm⟩
  have h1 : transformEntries tf (jentries (.obj fs)) ([], ResourceCounts_init, []) =
      (esm ++ (transformEntries tf l₂ ([], csm, [])).1,
       (transformEntries tf l₂ ([], csm, [])).2.1,
       (wsm ++ ["Failed to transform " ++ rt ++ ": " ++ e]) ++
         (transformEntries tf l₂ ([], csm, [])).2.2) := by
    rw [hTE1, hmid, hkey, transformEntries_acc]
  have h2 : transformEntries tf (jentries ((JVal.obj fs).set "entry" (.arr (l₁ ++ l₂))))
        ([], ResourceCounts_init, []) =
      (esm ++ (transformEntries tf l₂ ([], csm, [])).1,
       (transformEntries tf l₂ ([], csm, [])).2.1,
       wsm ++ (transformEntries tf l₂ ([], csm, [])).2.2) := by
    rw [hTE2, hmid, transformEntries_acc]
  constructor
  · refine ⟨?_, ?_, ?_⟩
    · rw [transform_bundle_proj, transform_bundle_proj]
      simp only [h1, h2, buildR5Bundle_set_entry]
    · rw [transform_bundle_proj, transform_bundle_proj]
      simp only [h1, h2]
    · rw [transform_bundle_proj]
      simp only [h1]
      simp
  · intro cs entry rt' hrt' htr'
    unfold transform_entry
    simp only [hrt', htr']

/-- Counterexample to claim C5 as stated: a Device entry (no registered
transformer) carrying a dangling `encounter` reference is NOT passed through
"unchanged apart from array-field normalization" — `transform_bundle`'s
orphaned-encounter cleanup deletes the dangling `encounter` field, whereas the
array-normalized resource still carries it. The transformer table's bodies are
irrelevant here (no entry of a registered kind exists); identity transformers
are used. -/
theorem C5_passthrough_counterexample :
    let tf : TransformerTable := ⟨.ok, .ok, .ok, .ok, .ok, .ok, .ok, .ok, .ok⟩
    let deviceResource : JVal := .obj [("resourceType", .str "Device"),
      ("encounter", .obj [("reference", .str "Encounter/missing")])]
    let entry : JVal := .obj [("fullUrl", .str "urn:uuid:d1"),
      ("resource", deviceResource)]
    let bundle : JVal := .obj [("type", .str "collection"), ("entry", .arr [entry])]
    ((jentries (transform_bundle tf bundle).1)[0]?).map
        (fun e' => (e'.getD "resource" (.obj [])).hasKey "encounter") = some false ∧
    (normalize_array_fields deviceResource).hasKey "encounter" = true := by
  exact ⟨by decide, by decide⟩

/-- Witness for the amended C5: a two-entry bundle whose Condition transformer
raises; the output bundle and counts equal those for the bundle without the
Condition entry, the warning names the type, and the Device entry passes the
transform stage with only array normalization. -/
theorem C5_transform_failure_isolation_witness :
    let tf : TransformerTable := ⟨.ok, fun _ => .error "boom", .ok, .ok, .ok, .ok,
      .ok, .ok, .ok⟩
    let badEntry : JVal := .obj [("fullUrl", .str "urn:uuid:c1"),
      ("resource", .obj [("resourceType", .str "Condition")])]
    let devEntry : JVal := .obj [("fullUrl", .str "urn:uuid:d1"),
      ("resource", .obj [("resourceType", .str "Device")])]
    let fs : JObj := [("type", .str "collection"), ("entry", .arr [badEntry, devEntry])]
    jentries (.obj fs) = [] ++ badEntry :: [devEntry] ∧
    truthyStr ((badEntry.getD "resource" (.obj [])).getStr? "resourceType") =
      some "Condition" ∧
    RESOURCE_TRANSFORMERS tf "Condition" = some (fun _ => .error "boom") ∧
    (fun (_ : JVal) => Except.error (ε := String) (α := JVal) "boom")
        (badEntry.getD "resource" (.obj [])) = .error "boom" ∧
    (((transform_bundle tf (.obj fs)).1 =
        (transform_bundle tf ((JVal.obj fs).set "entry"
          (.arr ([] ++ [devEntry])))).1 ∧
      (transform_bundle tf (.obj fs)).2.1 =
        (transform_bundle tf ((JVal.obj fs).set "entry"
          (.arr ([] ++ [devEntry])))).2.1 ∧
      ("Failed to transform " ++ "Condition" ++ ": " ++ "boom") ∈
        (transform_bundle tf (.obj fs)).2.2) ∧
     (∀ (cs : List (String × Nat)) (entry : JVal) (rt' : String),
       truthyStr ((entry.getD "resource" (.obj [])).getStr? "resourceType") =
         some rt' →
       RESOURCE_TRANSFORMERS tf rt' = none →
       transform_entry tf cs entry =
         ([entry.set "resource"
             (normalize_array_fields (entry.getD "resource" (.obj [])))],
          bumpCount cs rt', []))) := by
  refine ⟨rfl, rfl, rfl, rfl, ?_⟩
  exact C5_transform_failure_isolation _ _ [] [_] _ "Condition" "boom" _ rfl rfl rfl rfl

/-! ## Identifier service bundle pass (`src/import_/matching/identifier_service.py`)

`add_identifiers_to_bundle` and its helpers, including the diagnostic warnings
it accumulates (the pass's "NOT IN MAP"/"UNREWRITTEN" lines are what the spec
calls reporting a reference as unresolved, so they are embedded faithfully).
`patient_id : UUID` is embedded as its string form. -/

/-- Python truthiness of an arbitrary value. -/
def jtruthy : JVal → Bool
  | .str s => s != ""
  | .num q => q != 0
  | .bool b => b
  | .null => false
  | .obj fields => !fields.isEmpty
  | .arr items => !items.isEmpty

/-- Python `sub in s` (substring containment), list-based so it reduces. -/
def substrContains (s sub : String) : Bool :=
  (List.range (s.data.length + 1)).any (fun i => sub.data.isPrefixOf (s.data.drop i))

/-- `_extract_date`: FHIR dateTime string → date (falsy input or a parse
failure gives `None`); shares the split-on-T / first-10-chars logic embedded
as `parse_fhir_date`. -/
def extract_date (value : Option String) : Option PyDate :=
  match truthyStr value with
  | none => none
  | some v => parse_fhir_date v

/-- `_extract_date_from_period`: start date of a FHIR Period. -/
def extract_date_from_period (period : JVal) : Option PyDate :=
  extract_date (period.getStr? "start")

/-- `_extract_code`: first coding's code of `resource.code` (a non-list
`coding` or a non-string code is treated as absent). -/
def extract_code (resource : JVal) : Option String :=
  match (resource.getD "code" (.obj [])).get? "coding" with
  | some (.arr (first :: _)) => first.getStr? "code"
  | _ => none

/-- The R5 `medication.concept` fallback of `_extract_medication_code`. -/
def extract_medication_code_r5 (resource : JVal) : Option String :=
  let medication := resource.getD "medication" (.obj [])
  match medication.get? "concept" with
  | some concept =>
      match concept.get? "coding" with
      | some (.arr (first :: _)) => first.getStr? "code"
      | _ => none
  | none => none

/-- `_extract_medication_code`: R4 `medicationCodeableConcept` first, then the
R5 `medication.concept` form. -/
def extract_medication_code (resource : JVal) : Option String :=
  match (resource.getD "medicationCodeableConcept" (.obj [])).get? "coding" with
  | some (.arr (first :: _)) =>
      match first.getStr? "code" with
      | some code => some code
      | none => extract_medication_code_r5 resource
  | _ => extract_medication_code_r5 resource

/-- `ResourceIdentifier.to_fhir`. -/
def ResourceIdentifier.to_fhir (i : ResourceIdentifier) : JVal :=
  .obj [("system", .str i.system), ("value", .str i.value)]

/-- `IdentifierService.add_identifier_to_resource`. -/
def add_identifier_to_resource (resource : JVal) (identifier : ResourceIdentifier) :
    JVal :=
  let identifiers := match resource.get? "identifier" with
    | some (.arr l) => l
    | _ => []
  let already := identifiers.any (fun ex =>
    ex.getStr? "system" == some identifier.system &&
      ex.getStr? "value" == some identifier.value)
  if already then resource
  else resource.set "identifier" (.arr (identifiers ++ [identifier.to_fhir]))

/-- `IdentifierService.create_conditional_request`. -/
def create_conditional_request (resource_type : String)
    (identifier : ResourceIdentifier) : JVal :=
  .obj [("method", .str "PUT"),
    ("url", .str (resource_type ++ "?identifier=" ++ identifier.to_search_param))]

/-! `_collect_encounter_refs` / `_find_all_encounter_refs` diagnostics: every
string reference (simple or one-level nested) mentioning "Encounter" or
"urn:uuid", with its context path. -/

mutual
def collect_encounter_refs (obj : JVal) (context : String) : List String :=
  match obj with
  | .obj fields =>
      (match jlookup fields "reference" with
       | some (.str ref_value) =>
           if substrContains ref_value "Encounter" || substrContains ref_value "urn:uuid"
           then [ref_value ++ " in " ++ context] else []
       | some (.obj inner) =>
           (match jlookup inner "reference" with
            | some (.str nested) =>
                if substrContains nested "Encounter" || substrContains nested "urn:uuid"
                then [nested ++ " (nested) in " ++ context] else []
            | _ => [])
       | _ => []) ++ collect_encounter_refs_fields fields context
  | .arr items => collect_encounter_refs_arr items context 0
  | _ => []
def collect_encounter_refs_fields (fields : JObj) (context : String) : List String :=
  match fields with
  | [] => []
  | (k, v) :: rest =>
      collect_encounter_refs v (context ++ "." ++ k) ++
        collect_encounter_refs_fields rest context
def collect_encounter_refs_arr (items : List JVal) (context : String) (i : Nat) :
    List String :=
  match items with
  | [] => []
  | v :: rest =>
      collect_encounter_refs v (context ++ "[" ++ pyNatRepr i ++ "]") ++
        collect_encounter_refs_arr rest context (i + 1)
end

def find_all_encounter_refs (bundle : JVal) : List String :=
  (jentries bundle).foldl (fun refs entry =>
    let resource := entry.getD "resource" (.obj [])
    let rt := (resource.getStr? "resourceType").getD "Unknown"
    let rid := (resource.getStr? "id").getD "no-id"
    refs ++ collect_encounter_refs resource (rt ++ "/" ++ rid)) []

/-! `_remap_refs_in_obj`: rewrite every simple or one-level-nested reference
found in the map; report Encounter-prefixed references that are not in the
map; return the rewritten object, the remap count, and the appended warnings.

The source mutates `obj["reference"]` in place and then iterates over the
updated dict, so the field loop sees the already-remapped value (and, for a
remapped nested wrapper, processes it a second time). Here the replacement is
computed first and spliced into the field iteration at the reference key's
position, with that second processing of a remapped nested wrapper inlined —
the same traversal for unique-keyed dicts, written structurally. -/

inductive RefAction where
  | keep
  | simpleRepl (newref : String)
  | nestedRepl (newref : String)

mutual
def remap_refs_in_obj (obj : JVal) (ref_map : List (String × String))
    (context : String) : JVal × Nat × List String :=
  match obj with
  | .obj fields =>
      let step1 : RefAction × Nat × List String :=
        match jlookup fields "reference" with
        | some (.str ref_value) =>
            (match lookupStr ref_map ref_value with
             | some newref =>
                 (.simpleRepl newref, 1,
                  ["  REMAP: " ++ ref_value ++ " -> " ++ pyStrTake newref 40 ++
                    " in " ++ context])
             | none =>
                 if pyStartsWith ref_value "Encounter/" then
                   (.keep, 0, ["  NOT IN MAP: " ++ ref_value ++ " in " ++ context])
                 else (.keep, 0, []))
        | some (.obj inner) =>
            (match jlookup inner "reference" with
             | some (.str nested_ref) =>
                 (match lookupStr ref_map nested_ref with
                  | some newref =>
                      (.nestedRepl newref, 1,
                       ["  REMAP NESTED: " ++ nested_ref ++ " -> " ++
                         pyStrTake newref 40 ++ " in " ++ context])
                  | none =>
                      if pyStartsWith nested_ref "Encounter/" then
                        (.keep, 0,
                         ["  NOT IN MAP (nested): " ++ nested_ref ++ " in " ++ context])
                      else (.keep, 0, []))
             | _ => (.keep, 0, []))
        | _ => (.keep, 0, [])
      let step2 := remap_fields_splice step1.1 fields ref_map context
      (.obj step2.1, step1.2.1 + step2.2.1, step1.2.2 ++ step2.2.2)
  | .arr items =>
      let r := remap_refs_arr items ref_map context 0
      (.arr r.1, r.2.1, r.2.2)
  | v => (v, 0, [])
def remap_fields_splice (sub : RefAction) (fields : JObj)
    (ref_map : List (String × String)) (context : String) :
    JObj × Nat × List String :=
  match fields with
  | [] => ([], 0, [])
  | (k, v) :: rest =>
      match sub with
      | .simpleRepl newref =>
          if k = "reference" then
            -- the loop sees the already-replaced string; recursing into it
            -- contributes nothing
            let r2 := remap_fields_splice .keep rest ref_map context
            ((k, .str newref) :: r2.1, r2.2.1, r2.2.2)
          else
            let r1 := remap_refs_in_obj v ref_map (context ++ "." ++ k)
            let r2 := remap_fields_splice sub rest ref_map context
            ((k, r1.1) :: r2.1, r1.2.1 + r2.2.1, r1.2.2 ++ r2.2.2)
      | .nestedRepl newref =>
          if k = "reference" then
            (match v with
             | .obj inner =>
                 -- the loop sees the updated wrapper and processes it in full:
                 -- its (now string-valued) reference may be remapped once more
                 let ctx2 := context ++ "." ++ k
                 let first : RefAction × Nat × List String :=
                   match lookupStr ref_map newref with
                   | some newref2 =>
                       (.simpleRepl newref2, 1,
                        ["  REMAP: " ++ newref ++ " -> " ++ pyStrTake newref2 40 ++
                          " in " ++ ctx2])
                   | none =>
                       if pyStartsWith newref "Encounter/" then
                         (.simpleRepl newref, 0,
                          ["  NOT IN MAP: " ++ newref ++ " in " ++ ctx2])
                       else (.simpleRepl newref, 0, [])
                 let rInner := remap_fields_splice first.1 inner ref_map ctx2
                 let r2 := remap_fields_splice .keep rest ref_map context
                 ((k, .obj rInner.1) :: r2.1,
                  first.2.1 + rInner.2.1 + r2.2.1,
                  first.2.2 ++ rInner.2.2 ++ r2.2.2)
             | _ =>
                 -- unreachable: the action was derived from this value being a
                 -- wrapper object
                 let r2 := remap_fields_splice .keep rest ref_map context
                 ((k, v) :: r2.1, r2.2.1, r2.2.2))
          else
            let r1 := remap_refs_in_obj v ref_map (context ++ "." ++ k)
            let r2 := remap_fields_splice sub rest ref_map context
            ((k, r1.1) :: r2.1, r1.2.1 + r2.2.1, r1.2.2 ++ r2.2.2)
      | .keep =>
          let r1 := remap_refs_in_obj v ref_map (context ++ "." ++ k)
          let r2 := remap_fields_splice .keep rest ref_map context
          ((k, r1.1) :: r2.1, r1.2.1 + r2.2.1, r1.2.2 ++ r2.2.2)
def remap_refs_arr (items : List JVal) (ref_map : List (String × String))
    (context : String) (i : Nat) : List JVal × Nat × List String :=
  match items with
  | [] => ([], 0, [])
  | v :: rest =>
      let r1 := remap_refs_in_obj v ref_map (context ++ "[" ++ pyNatRepr i ++ "]")
      let r2 := remap_refs_arr rest ref_map context (i + 1)
      (r1.1 :: r2.1, r1.2.1 + r2.2.1, r1.2.2 ++ r2.2.2)
end

/-- `_remap_references`: remap every entry's resource, then report the total. -/
def remap_references (bundle : JVal) (ref_map : List (String × String)) :
    JVal × List String :=
  let folded := (jentries bundle).foldl
    (fun (acc : List JVal × Nat × List String) entry =>
      let resource := entry.getD "resource" (.obj [])
      let rt := (resource.getStr? "resourceType").getD "Unknown"
      let rid := (resource.getStr? "id").getD "no-id"
      let r := remap_refs_in_obj resource ref_map (rt ++ "/" ++ rid)
      (acc.1 ++ [if entry.hasKey "resource" then entry.set "resource" r.1 else entry],
       acc.2.1 + r.2.1, acc.2.2 ++ r.2.2))
    ([], 0, [])
  (bundle.set "entry" (.arr folded.1),
   folded.2.2 ++ ["Remapped " ++ pyNatRepr folded.2.1 ++ " references total"])

/-! `_collect_refs` / `_find_unrewritten_refs`: references (simple or
one-level nested) still carrying a given prefix. -/

mutual
def collect_refs (obj : JVal) (p : String) : List String :=
  match obj with
  | .obj fields =>
      (match jlookup fields "reference" with
       | some (.str rv) => if pyStartsWith rv p then [rv] else []
       | some (.obj inner) =>
           (match jlookup inner "reference" with
            | some (.str nested) => if pyStartsWith nested p then [nested] else []
            | _ => [])
       | _ => []) ++ collect_refs_fields fields p
  | .arr items => collect_refs_arr items p
  | _ => []
def collect_refs_fields (fields : JObj) (p : String) : List String :=
  match fields with
  | [] => []
  | (_, v) :: rest => collect_refs v p ++ collect_refs_fields rest p
def collect_refs_arr (items : List JVal) (p : String) : List String :=
  match items with
  | [] => []
  | v :: rest => collect_refs v p ++ collect_refs_arr rest p
end

def find_unrewritten_refs (bundle : JVal) (p : String) : List String :=
  (jentries bundle).foldl (fun refs entry =>
    let resource := entry.getD "resource" (.obj [])
    let rt := (resource.getStr? "resourceType").getD "Unknown"
    let rid := (resource.getStr? "id").getD "no-id"
    refs ++ (collect_refs resource p).map (fun r =>
      r ++ " (in " ++ rt ++ "/" ++ rid ++ ")")) []

/-! `add_identifiers_to_bundle`: identifier assignment, duplicate marking and
removal, reference normalization, and the accumulated diagnostics. -/

/-- The ASCII apostrophe, used by Python `repr` of strings. -/
def pyQuote : String := String.singleton (Char.ofNat 39)

def joinCommaSep : List String → String
  | [] => ""
  | [x] => x
  | x :: y :: rest => x ++ ", " ++ joinCommaSep (y :: rest)

/-- Python `repr` of a str→int dict (insertion order). -/
def pyDictReprNat (d : List (String × Nat)) : String :=
  "\x7b" ++ joinCommaSep (d.map (fun kv =>
    pyQuote ++ kv.1 ++ pyQuote ++ ": " ++ pyNatRepr kv.2)) ++ "\x7d"

/-- Python `repr` of a list of strings. -/
def pyListReprStr (l : List String) : String :=
  "[" ++ joinCommaSep (l.map (fun s => pyQuote ++ s ++ pyQuote)) ++ "]"

/-- `d[k] = d.get(k, 0) + 1` keeping first-appearance order. -/
def bumpDictNat (d : List (String × Nat)) (k : String) : List (String × Nat) :=
  match d with
  | [] => [(k, 1)]
  | (k', n) :: rest => if k' = k then (k', n + 1) :: rest else (k', n) :: bumpDictNat rest k

/-- The per-kind identifier rule dispatch of `add_identifiers_to_bundle`'s
second pass: the computed identifier (when the kind has a rule and the needed
fields are present) and the `skip_conditional_put` flag (set for Encounters).
The Condition onset chain `onsetDateTime or recordedDate` is embedded on the
string-valued readings of those fields (a present non-string value would parse
to no date in the source as well). -/
def compute_identifier (patient_id : String) (resource_type : String)
    (resource : JVal) : Option ResourceIdentifier × Bool :=
  if resource_type = "Encounter" then
    (match extract_date_from_period (resource.getD "actualPeriod" (.obj [])) with
     | some enc_date => some (encounter_identifier patient_id enc_date)
     | none => none, true)
  else if resource_type = "Condition" then
    (match truthyStr (extract_code resource),
        extract_date (pyOrStr (resource.getStr? "onsetDateTime")
          (resource.getStr? "recordedDate")) with
     | some code, some onset_date =>
         some (condition_identifier patient_id code onset_date)
     | _, _ => none, false)
  else if resource_type = "Composition" then
    (match extract_date (resource.getStr? "date") with
     | some comp_date => some (composition_identifier patient_id comp_date)
     | none => none, false)
  else if resource_type = "MedicationStatement" then
    (match truthyStr (extract_medication_code resource) with
     | some code =>
         let start_date :=
           match extract_date_from_period (resource.getD "effectivePeriod" (.obj [])) with
           | some d => some d
           | none => extract_date (resource.getStr? "effectiveDateTime")
         some (medication_identifier patient_id code start_date)
     | none => none, false)
  else if resource_type = "Observation" then
    (match truthyStr (extract_code resource),
        extract_date (resource.getStr? "effectiveDateTime") with
     | some code, some eff_date =>
         some (observation_identifier patient_id code eff_date)
     | _, _ => none, false)
  else (none, false)

structure Pass1Out where
  id_to_fullurl : List (String × String)
  warnings : List String
  encounter_count : Nat

/-- The first pass: collect `ResourceType/id -> fullUrl` mappings (plus the
per-Encounter diagnostics). -/
def pass1_collect (entries : List JVal) : Pass1Out :=
  entries.foldl (fun st entry =>
    let resource := entry.getD "resource" (.obj [])
    let rtStr := (resource.getStr? "resourceType").getD ""
    let entry_fullurl := (entry.getStr? "fullUrl").getD ""
    let resource_id := (resource.getStr? "id").getD ""
    let st :=
      if rtStr = "Encounter" then
        let n := st.encounter_count + 1
        let ws := st.warnings ++ ["Encounter #" ++ pyNatRepr n ++ ": id=" ++
          resource_id ++ ", fullUrl=" ++ pyStrTake entry_fullurl 50]
        let ws :=
          if resource_id = "" ∨ entry_fullurl = "" then
            ws ++ ["  WARNING: Encounter #" ++ pyNatRepr n ++ " missing id or fullUrl!"]
          else ws
        { st with encounter_count := n, warnings := ws }
      else st
    if rtStr ≠ "" ∧ resource_id ≠ "" ∧ entry_fullurl ≠ "" then
      { st with id_to_fullurl :=
          dictSetStr st.id_to_fullurl (rtStr ++ "/" ++ resource_id) entry_fullurl }
    else st)
    ⟨[], [], 0⟩

structure Pass2State where
  identifier_to_fullurl : List (String × String)
  duplicate_refs : List (String × String)

/-- The second pass's per-entry body: compute the identifier, either mark the
entry as a duplicate (recording its fullUrl and `ResourceType/id` as aliases of
the kept entry's fullUrl) or claim the identifier (attaching it to the resource
and, except for Encounters, a conditional-PUT request), then point the
resource's subject at the matched patient. -/
def process_entry_identifiers (patient_id : String) (st : Pass2State) (entry : JVal) :
    JVal × Pass2State :=
  let resource := entry.getD "resource" (.obj [])
  match truthyStr (resource.getStr? "resourceType") with
  | none => (entry, st)
  | some resource_type =>
      let ci := compute_identifier patient_id resource_type resource
      let step : JVal × JVal × Pass2State :=
        match ci.1 with
        | some identifier =>
            let search_param := identifier.to_search_param
            (match lookupStr st.identifier_to_fullurl search_param with
             | some kept_fullurl =>
                 let entry := entry.set "_duplicate" (.bool true)
                 let entry_fullurl := (entry.getStr? "fullUrl").getD ""
                 let entry_id := resource_type ++ "/" ++ ((resource.getStr? "id").getD "")
                 let dup := st.duplicate_refs
                 let dup := if entry_fullurl ≠ "" then
                     dictSetStr dup entry_fullurl kept_fullurl else dup
                 let dup := match truthyStr (resource.getStr? "id") with
                   | some _ => dictSetStr dup entry_id kept_fullurl
                   | none => dup
                 (entry, resource, { st with duplicate_refs := dup })
             | none =>
                 let entry_fullurl := (entry.getStr? "fullUrl").getD ""
                 let i2f := dictSetStr st.identifier_to_fullurl search_param entry_fullurl
                 let st := { st with identifier_to_fullurl := i2f }
                 let resource := add_identifier_to_resource resource identifier
                 let entry :=
                   if !ci.2 then
                     entry.set "request" (create_conditional_request resource_type identifier)
                   else entry
                 (entry, resource, st))
        | none => (entry, resource, st)
      let resource :=
        if step.2.1.hasKey "subject" then
          let subject_ref := JVal.obj [("reference", .str ("Patient/" ++ patient_id))]
          match step.2.1.get? "subject" with
          | some (.arr _) => step.2.1.set "subject" (.arr [subject_ref])
          | _ => step.2.1.set "subject" subject_ref
        else step.2.1
      ((if step.1.hasKey "resource" then step.1.set "resource" resource else step.1),
       step.2.2)

def pass2 (patient_id : String) :
    List JVal → List JVal × Pass2State → List JVal × Pass2State
  | [], acc => acc
  | entry :: rest, (es, st) =>
      let r := process_entry_identifiers patient_id st entry
      pass2 patient_id rest (es ++ [r.1], r.2)

/-- Build the complete reference map: `ResourceType/id -> fullUrl` (skipping
identity mappings), then the duplicate aliases on top. -/
def build_ref_map (id_to_fullurl duplicate_refs : List (String × String)) :
    List (String × String) :=
  let ref_map := id_to_fullurl.foldl
    (fun m kv => if kv.1 ≠ kv.2 then dictSetStr m kv.1 kv.2 else m) []
  duplicate_refs.foldl (fun m kv => dictSetStr m kv.1 kv.2) ref_map

/-- Python truthiness of an optional value (`d.get(k)`). -/
def jtruthyOpt (v : Option JVal) : Bool :=
  match v with
  | some x => jtruthy x
  | none => false

/-- Embedding of `add_identifiers_to_bundle`, diagnostics included. -/
def add_identifiers_to_bundle (bundle : JVal) (patient_id : String) :
    JVal × List String :=
  let initial_enc_refs := find_all_encounter_refs bundle
  let id_warnings :=
    ["INITIAL: Found " ++ pyNatRepr initial_enc_refs.length ++ " Encounter refs"] ++
    (initial_enc_refs.take 10).map (fun r => "  INITIAL REF: " ++ r)
  let bundle := bundle.set "type" (.str "transaction")
  let p1 := pass1_collect (jentries bundle)
  let id_to_fullurl := p1.id_to_fullurl
  let id_warnings := id_warnings ++ p1.warnings
  let enc_mappings := id_to_fullurl.filter (fun kv => pyStartsWith kv.1 "Encounter/")
  let id_warnings := id_warnings ++
    ["Collected " ++ pyNatRepr id_to_fullurl.length ++ " id->fullUrl mappings, " ++
      pyNatRepr enc_mappings.length ++ " are Encounters"]
  let id_warnings := id_warnings ++ (enc_mappings.take 3).map (fun kv =>
    "  Mapping: " ++ kv.1 ++ " -> " ++ pyStrTake kv.2 50)
  let p2 := pass2 patient_id (jentries bundle) ([], ⟨[], []⟩)
  let bundle := bundle.set "entry" (.arr p2.1)
  let st := p2.2
  let ref_map := build_ref_map id_to_fullurl st.duplicate_refs
  let enc_ref_map := ref_map.filter (fun kv => substrContains kv.1 "Encounter")
  let id_warnings := id_warnings ++
    ["ref_map has " ++ pyNatRepr ref_map.length ++ " total, " ++
      pyNatRepr enc_ref_map.length ++ " Encounter mappings"]
  let id_warnings := id_warnings ++ (enc_ref_map.take 5).map (fun kv =>
    "  ref_map: " ++ kv.1 ++ " -> " ++ pyStrTake kv.2 50)
  let pre_remap_refs := find_all_encounter_refs bundle
  let id_warnings := id_warnings ++
    ["PRE-REMAP: " ++ pyNatRepr pre_remap_refs.length ++ " Encounter refs"] ++
    (pre_remap_refs.take 10).map (fun r => "  PRE-REMAP: " ++ r)
  let remapped : JVal × List String :=
    if !ref_map.isEmpty then
      let r := remap_references bundle ref_map
      (r.1, ["Remapping " ++ pyNatRepr ref_map.length ++ " references"] ++ r.2)
    else (bundle, [])
  let bundle := remapped.1
  let id_warnings := id_warnings ++ remapped.2
  let post_remap_refs := find_all_encounter_refs bundle
  let id_warnings := id_warnings ++
    ["POST-REMAP: " ++ pyNatRepr post_remap_refs.length ++ " Encounter refs"] ++
    (post_remap_refs.take 10).map (fun r => "  POST-REMAP: " ++ r)
  let duplicates_removed :=
    ((jentries bundle).filter (fun e => jtruthyOpt (e.get? "_duplicate"))).length
  let bundle := bundle.set "entry"
    (.arr ((jentries bundle).filter (fun e => !jtruthyOpt (e.get? "_duplicate"))))
  let id_warnings := id_warnings ++
    ["Removed " ++ pyNatRepr duplicates_removed ++ " duplicate entries from bundle"]
  let unrewritten := find_unrewritten_refs bundle "Encounter/"
  let id_warnings := id_warnings ++
    ["UNREWRITTEN: " ++ pyNatRepr unrewritten.length ++ " Encounter/ refs remaining"] ++
    (unrewritten.take 20).map (fun r => "  UNREWRITTEN: " ++ r)
  let counted := (jentries bundle).foldl
    (fun (acc : List (String × Nat) × List String) entry =>
      let resource := entry.getD "resource" (.obj [])
      let rtype := (resource.getStr? "resourceType").getD "Unknown"
      (bumpDictNat acc.1 rtype,
       if rtype = "Encounter" then
         acc.2 ++ [(entry.getStr? "fullUrl").getD "NO_FULLURL"]
       else acc.2)) ([], [])
  let id_warnings := id_warnings ++ ["Final bundle: " ++ pyDictReprNat counted.1]
  let id_warnings := id_warnings ++
    ["Sample Encounter fullUrls: " ++ pyListReprStr (counted.2.take 3)]
  let final_refs := find_all_encounter_refs bundle
  let id_warnings := id_warnings ++
    ["FINAL: " ++ pyNatRepr final_refs.length ++ " total Encounter refs"]
  let urn_refs := final_refs.filter (fun r => substrContains r "urn:uuid")
  let enc_id_refs := final_refs.filter (fun r =>
    substrContains r "Encounter/" && !substrContains r "urn:uuid")
  let id_warnings := id_warnings ++
    ["  urn:uuid refs: " ++ pyNatRepr urn_refs.length ++ ", Encounter/ refs: " ++
      pyNatRepr enc_id_refs.length]
  let id_warnings := id_warnings ++ (enc_id_refs.take 10).map (fun r => "  BAD REF: " ++ r)
  (bundle, id_warnings)

/-! Closure of the reference remap over Encounter-prefixed references:
helper lemmas. -/

theorem strApp_assoc (a b c : String) : a ++ b ++ c = a ++ (b ++ c) :=
  congrArg String.mk (List.append_assoc a.data b.data c.data)

theorem substrContains_append (a r b : String) :
    substrContains (a ++ r ++ b) r = true := by
  unfold substrContains
  apply List.any_eq_true.mpr
  refine ⟨a.data.length, ?_, ?_⟩
  · apply List.mem_range.mpr
    have hd : (a ++ r ++ b).data = a.data ++ r.data ++ b.data := rfl
    rw [hd]
    simp only [List.length_append]
    omega
  · have hd : (a ++ r ++ b).data = a.data ++ (r.data ++ b.data) := by
      show (a.data ++ r.data) ++ b.data = a.data ++ (r.data ++ b.data)
      exact List.append_assoc _ _ _
    rw [hd, List.drop_left]
    exact List.isPrefixOf_iff_prefix.mpr (List.prefix_append _ _)

theorem substrContains_mid (a r b c : String) :
    substrContains (a ++ r ++ b ++ c) r = true := by
  have h : a ++ r ++ b ++ c = a ++ r ++ (b ++ c) := strApp_assoc (a ++ r) b c
  rw [h]
  exact substrContains_append a r (b ++ c)

/-- A reference is accounted for: it is a value of the reference map (the
canonical identifier some reference was rewritten to) or some warning in the
list mentions it. -/
def refReported (m : List (String × String)) (ws : List String) (r : String) : Prop :=
  (∃ k, lookupStr m k = some r) ∨ (∃ w ∈ ws, substrContains w r = true)

theorem refReported_mono {m : List (String × String)} {ws ws' : List String}
    {r : String} (hsub : ∀ w ∈ ws, w ∈ ws') :
    refReported m ws r → refReported m ws' r := by
  rintro (h | ⟨w, hw, hc⟩)
  · exact Or.inl h
  · exact Or.inr ⟨w, hsub w hw, hc⟩

theorem jlookup_mem {F : JObj} {k : String} {v : JVal}
    (h : jlookup F k = some v) : (k, v) ∈ F := by
  induction F with
  | nil => simp [jlookup] at h
  | cons kv rest ih =>
      obtain ⟨k', v'⟩ := kv
      simp only [jlookup] at h
      split at h
      · rename_i hk
        injection h with hv
        subst hk
        subst hv
        exact List.mem_cons_self _ _
      · exact List.mem_cons_of_mem _ (ih h)

theorem collect_refs_fields_of_mem {F : JObj} {k : String} {v : JVal}
    (h : (k, v) ∈ F) (p : String) :
    ∀ r ∈ collect_refs v p, r ∈ collect_refs_fields F p := by
  induction F with
  | nil => simp at h
  | cons kv rest ih =>
      intro r hr
      rcases List.mem_cons.mp h with h0 | h1
      · obtain ⟨k', v'⟩ := kv
        obtain ⟨hk, hv⟩ := Prod.mk.injEq .. ▸ h0
        show r ∈ collect_refs v' p ++ collect_refs_fields rest p
        exact List.mem_append_left _ (hv ▸ hr)
      · obtain ⟨k', v'⟩ := kv
        show r ∈ collect_refs v' p ++ collect_refs_fields rest p
        exact List.mem_append_right _ (ih h1 r hr)

/-- The reference decision of `_remap_refs_in_obj`'s dict case, as a named
function (identical to the inline computation). -/
def refStep1 (fields : JObj) (ref_map : List (String × String)) (context : String) :
    RefAction × Nat × List String :=
  match jlookup fields "reference" with
  | some (.str ref_value) =>
      (match lookupStr ref_map ref_value with
       | some newref =>
           (.simpleRepl newref, 1,
            ["  REMAP: " ++ ref_value ++ " -> " ++ pyStrTake newref 40 ++
              " in " ++ context])
       | none =>
           if pyStartsWith ref_value "Encounter/" then
             (.keep, 0, ["  NOT IN MAP: " ++ ref_value ++ " in " ++ context])
           else (.keep, 0, []))
  | some (.obj inner) =>
      (match jlookup inner "reference" with
       | some (.str nested_ref) =>
           (match lookupStr ref_map nested_ref with
            | some newref =>
                (.nestedRepl newref, 1,
                 ["  REMAP NESTED: " ++ nested_ref ++ " -> " ++
                   pyStrTake newref 40 ++ " in " ++ context])
            | none =>
                if pyStartsWith nested_ref "Encounter/" then
                  (.keep, 0,
                   ["  NOT IN MAP (nested): " ++ nested_ref ++ " in " ++ context])
                else (.keep, 0, []))
       | _ => (.keep, 0, []))
  | _ => (.keep, 0, [])

/-- The second processing of a remapped nested wrapper (the field loop seeing
the already-updated wrapper), as a named function. -/
def nestedSecondPass (ref_map : List (String × String)) (newref : String)
    (ctx2 : String) : RefAction × Nat × List String :=
  match lookupStr ref_map newref with
  | some newref2 =>
      (.simpleRepl newref2, 1,
       ["  REMAP: " ++ newref ++ " -> " ++ pyStrTake newref2 40 ++ " in " ++ ctx2])
  | none =>
      if pyStartsWith newref "Encounter/" then
        (.simpleRepl newref, 0, ["  NOT IN MAP: " ++ newref ++ " in " ++ ctx2])
      else (.simpleRepl newref, 0, [])

theorem remap_str_eq (s : String) (m : List (String × String)) (c : String) :
    remap_refs_in_obj (.str s) m c = (.str s, 0, []) := rfl

theorem remap_num_eq (q : Rat) (m : List (String × String)) (c : String) :
    remap_refs_in_obj (.num q) m c = (.num q, 0, []) := rfl

theorem remap_bool_eq (b : Bool) (m : List (String × String)) (c : String) :
    remap_refs_in_obj (.bool b) m c = (.bool b, 0, []) := rfl

theorem remap_null_eq (m : List (String × String)) (c : String) :
    remap_refs_in_obj .null m c = (.null, 0, []) := rfl

theorem remap_arr_eq (items : List JVal) (m : List (String × String)) (c : String) :
    remap_refs_in_obj (.arr items) m c =
      (.arr (remap_refs_arr items m c 0).1, (remap_refs_arr items m c 0).2.1,
       (remap_refs_arr items m c 0).2.2) := rfl

theorem remap_obj_eq (fields : JObj) (m : List (String × String)) (c : String) :
    remap_refs_in_obj (.obj fields) m c =
      (.obj (remap_fields_splice (refStep1 fields m c).1 fields m c).1,
       (refStep1 fields m c).2.1 + (remap_fields_splice (refStep1 fields m c).1 fields m c).2.1,
       (refStep1 fields m c).2.2 ++ (remap_fields_splice (refStep1 fields m c).1 fields m c).2.2) := rfl

theorem splice_nil_eq (sub : RefAction) (m : List (String × String)) (c : String) :
    remap_fields_splice sub [] m c = ([], 0, []) := by
  cases sub <;> rfl

theorem splice_keep_cons (k : String) (v : JVal) (rest : JObj)
    (m : List (String × String)) (c : String) :
    remap_fields_splice .keep ((k, v) :: rest) m c =
      ((k, (remap_refs_in_obj v m (c ++ "." ++ k)).1) ::
         (remap_fields_splice .keep rest m c).1,
       (remap_refs_in_obj v m (c ++ "." ++ k)).2.1 +
         (remap_fields_splice .keep rest m c).2.1,
       (remap_refs_in_obj v m (c ++ "." ++ k)).2.2 ++
         (remap_fields_splice .keep rest m c).2.2) := rfl


theorem splice_simple_cons_ref (n : String) (v : JVal) (rest : JObj)
    (m : List (String × String)) (c : String) :
    remap_fields_splice (.simpleRepl n) (("reference", v) :: rest) m c =
      (("reference", JVal.str n) :: (remap_fields_splice .keep rest m c).1,
       (remap_fields_splice .keep rest m c).2.1,
       (remap_fields_splice .keep rest m c).2.2) := rfl

theorem splice_simple_cons_ne {k : String} (hk : k ≠ "reference") (n : String)
    (v : JVal) (rest : JObj) (m : List (String × String)) (c : String) :
    remap_fields_splice (.simpleRepl n) ((k, v) :: rest) m c =
      ((k, (remap_refs_in_obj v m (c ++ "." ++ k)).1) ::
         (remap_fields_splice (.simpleRepl n) rest m c).1,
       (remap_refs_in_obj v m (c ++ "." ++ k)).2.1 +
         (remap_fields_splice (.simpleRepl n) rest m c).2.1,
       (remap_refs_in_obj v m (c ++ "." ++ k)).2.2 ++
         (remap_fields_splice (.simpleRepl n) rest m c).2.2) := by
  show (if k = "reference" then
          ((k, JVal.str n) :: (remap_fields_splice .keep rest m c).1,
           (remap_fields_splice .keep rest m c).2.1,
           (remap_fields_splice .keep rest m c).2.2)
        else
          ((k, (remap_refs_in_obj v m (c ++ "." ++ k)).1) ::
             (remap_fields_splice (.simpleRepl n) rest m c).1,
           (remap_refs_in_obj v m (c ++ "." ++ k)).2.1 +
             (remap_fields_splice (.simpleRepl n) rest m c).2.1,
           (remap_refs_in_obj v m (c ++ "." ++ k)).2.2 ++
             (remap_fields_splice (.simpleRepl n) rest m c).2.2)) = _
  rw [if_neg hk]

theorem splice_nested_cons_ref_obj (n : String) (inner : JObj) (rest : JObj)
    (m : List (String × String)) (c : String) :
    remap_fields_splice (.nestedRepl n) (("reference", .obj inner) :: rest) m c =
      (("reference", JVal.obj (remap_fields_splice
          (nestedSecondPass m n (c ++ "." ++ "reference")).1
          inner m (c ++ "." ++ "reference")).1) ::
         (remap_fields_splice .keep rest m c).1,
       (nestedSecondPass m n (c ++ "." ++ "reference")).2.1 +
         (remap_fields_splice (nestedSecondPass m n (c ++ "." ++ "reference")).1
           inner m (c ++ "." ++ "reference")).2.1 +
         (remap_fields_splice .keep rest m c).2.1,
       (nestedSecondPass m n (c ++ "." ++ "reference")).2.2 ++
         (remap_fields_splice (nestedSecondPass m n (c ++ "." ++ "reference")).1
           inner m (c ++ "." ++ "reference")).2.2 ++
         (remap_fields_splice .keep rest m c).2.2) := rfl

theorem splice_nested_cons_ne {k : String} (hk : k ≠ "reference") (n : String)
    (v : JVal) (rest : JObj) (m : List (String × String)) (c : String) :
    remap_fields_splice (.nestedRepl n) ((k, v) :: rest) m c =
      ((k, (remap_refs_in_obj v m (c ++ "." ++ k)).1) ::
         (remap_fields_splice (.nestedRepl n) rest m c).1,
       (remap_refs_in_obj v m (c ++ "." ++ k)).2.1 +
         (remap_fields_splice (.nestedRepl n) rest m c).2.1,
       (remap_refs_in_obj v m (c ++ "." ++ k)).2.2 ++
         (remap_fields_splice (.nestedRepl n) rest m c).2.2) := by
  conv_lhs => rw [remap_fields_splice.eq_def]
  simp only [if_neg hk]

theorem collect_obj_eq (fields : JObj) (p : String) :
    collect_refs (.obj fields) p =
      (match jlookup fields "reference" with
       | some (.str rv) => if pyStartsWith rv p then [rv] else []
       | some (.obj inner) =>
           (match jlookup inner "reference" with
            | some (.str nested) => if pyStartsWith nested p then [nested] else []
            | _ => [])
       | _ => []) ++ collect_refs_fields fields p := rfl

theorem collect_fields_nil_eq (p : String) : collect_refs_fields [] p = [] := rfl

theorem collect_fields_cons_eq (k : String) (v : JVal) (rest : JObj) (p : String) :
    collect_refs_fields ((k, v) :: rest) p =
      collect_refs v p ++ collect_refs_fields rest p := rfl

theorem collect_arr_nil_eq (p : String) : collect_refs_arr [] p = [] := rfl

theorem collect_arr_cons_eq (v : JVal) (rest : List JVal) (p : String) :
    collect_refs_arr (v :: rest) p = collect_refs v p ++ collect_refs_arr rest p := rfl

theorem jlookup_splice_keep (F : JObj) (m : List (String × String)) (c key : String) :
    jlookup (remap_fields_splice .keep F m c).1 key =
      (jlookup F key).map (fun v => (remap_refs_in_obj v m (c ++ "." ++ key)).1) := by
  induction F with
  | nil => rfl
  | cons kv rest ih =>
      obtain ⟨k, v⟩ := kv
      rw [splice_keep_cons]
      show jlookup ((k, (remap_refs_in_obj v m (c ++ "." ++ k)).1) ::
        (remap_fields_splice .keep rest m c).1) key = _
      by_cases hk : k = key
      · subst hk
        simp [jlookup]
      · simp only [jlookup, if_neg hk, ih]

theorem jlookup_splice_simple (F : JObj) (m : List (String × String)) (c n : String) :
    jlookup (remap_fields_splice (.simpleRepl n) F m c).1 "reference" =
      (jlookup F "reference").map (fun _ => JVal.str n) := by
  induction F with
  | nil => rfl
  | cons kv rest ih =>
      obtain ⟨k, v⟩ := kv
      by_cases hk : k = "reference"
      · subst hk
        rw [splice_simple_cons_ref]
        simp [jlookup]
      · rw [splice_simple_cons_ne hk]
        simp only [jlookup, if_neg hk, ih]

theorem jlookup_splice_nested (F : JObj) (m : List (String × String)) (c n : String)
    (inner : JObj) (h : jlookup F "reference" = some (.obj inner)) :
    jlookup (remap_fields_splice (.nestedRepl n) F m c).1 "reference" =
      some (.obj (remap_fields_splice
        (nestedSecondPass m n (c ++ "." ++ "reference")).1
        inner m (c ++ "." ++ "reference")).1) := by
  induction F with
  | nil => simp [jlookup] at h
  | cons kv rest ih =>
      obtain ⟨k, v⟩ := kv
      by_cases hk : k = "reference"
      · subst hk
        simp only [jlookup, if_true] at h
        injection h with h
        subst h
        rw [splice_nested_cons_ref_obj]
        simp [jlookup]
      · simp only [jlookup, if_neg hk] at h
        rw [splice_nested_cons_ne hk]
        simp only [jlookup, if_neg hk]
        exact ih h

theorem collect_str_eq (s p : String) : collect_refs (.str s) p = [] := rfl

theorem collect_num_eq (q : Rat) (p : String) : collect_refs (.num q) p = [] := rfl

theorem collect_bool_eq (b : Bool) (p : String) : collect_refs (.bool b) p = [] := rfl

theorem collect_null_eq (p : String) : collect_refs .null p = [] := rfl

theorem collect_arr_eq (items : List JVal) (p : String) :
    collect_refs (.arr items) p = collect_refs_arr items p := rfl

/-- A dict whose reference value is a prefixed string collects that string. -/
theorem mem_collect_obj_of_ref {W : JObj} {r p : String}
    (h : jlookup W "reference" = some (.str r)) (hp : pyStartsWith r p = true) :
    r ∈ collect_refs (.obj W) p := by
  rw [collect_obj_eq]
  apply List.mem_append_left
  rw [h]
  simp [hp]

/-- Membership in the reference-position part of `_collect_refs` on a dict:
either the dict's reference value is the string itself, or the dict holds a
wrapper object whose own reference value is the string. -/
theorem collect_top_cases (X : JObj) (p r : String)
    (hr : r ∈ (match jlookup X "reference" with
       | some (.str rv) => if pyStartsWith rv p then [rv] else []
       | some (.obj inner) =>
           (match jlookup inner "reference" with
            | some (.str nested) => if pyStartsWith nested p then [nested] else []
            | _ => [])
       | _ => [])) :
    (jlookup X "reference" = some (.str r) ∧ pyStartsWith r p = true) ∨
    (∃ W, jlookup X "reference" = some (.obj W) ∧
       jlookup W "reference" = some (.str r) ∧ pyStartsWith r p = true) := by
  split at hr
  · rename_i rv heq
    split at hr
    · rename_i hp
      simp at hr
      subst hr
      exact Or.inl ⟨heq, hp⟩
    · simp at hr
  · rename_i inner heq
    split at hr
    · rename_i nested heq2
      split at hr
      · rename_i hp
        simp at hr
        subst hr
        exact Or.inr ⟨inner, heq, heq2, hp⟩
      · simp at hr
    · simp at hr
  · simp at hr

theorem collect_of_top_obj {X : JObj} {p r : String} {W : JObj}
    (hX : jlookup X "reference" = some (.obj W))
    (hW : jlookup W "reference" = some (.str r)) (hp : pyStartsWith r p = true) :
    r ∈ collect_refs_fields X p :=
  collect_refs_fields_of_mem (jlookup_mem hX) p r (mem_collect_obj_of_ref hW hp)

theorem nestedSecondPass_spec (m : List (String × String)) (n c2 : String) :
    ∃ f, (nestedSecondPass m n c2).1 = .simpleRepl f ∧
      ((∃ k0, lookupStr m k0 = some f) ∨ f = n) := by
  unfold nestedSecondPass
  rcases hl : lookupStr m n with _ | n2
  · by_cases hp : pyStartsWith n "Encounter/" = true
    · exact ⟨n, by rw [if_pos hp], Or.inr rfl⟩
    · exact ⟨n, by rw [if_neg hp], Or.inr rfl⟩
  · exact ⟨n2, rfl, Or.inl ⟨n, hl⟩⟩

/-- The side condition under which the field splice keeps all Encounter
references accounted for: a nested replacement must come from the map and the
field list must actually hold the wrapper it targets. -/
def spliceOK (m : List (String × String)) (sub : RefAction) (F : JObj) : Prop :=
  match sub with
  | .keep => True
  | .simpleRepl _ => True
  | .nestedRepl n =>
      (∃ k, lookupStr m k = some n) ∧ ∃ inner, jlookup F "reference" = some (.obj inner)

theorem remap_arr_nil_eq (m : List (String × String)) (c : String) (i : Nat) :
    remap_refs_arr [] m c i = ([], 0, []) := rfl

theorem remap_arr_cons_eq (v : JVal) (rest : List JVal)
    (m : List (String × String)) (c : String) (i : Nat) :
    remap_refs_arr (v :: rest) m c i =
      ((remap_refs_in_obj v m (c ++ "[" ++ pyNatRepr i ++ "]")).1 ::
         (remap_refs_arr rest m c (i + 1)).1,
       (remap_refs_in_obj v m (c ++ "[" ++ pyNatRepr i ++ "]")).2.1 +
         (remap_refs_arr rest m c (i + 1)).2.1,
       (remap_refs_in_obj v m (c ++ "[" ++ pyNatRepr i ++ "]")).2.2 ++
         (remap_refs_arr rest m c (i + 1)).2.2) := rfl

/-! The closure induction: every Encounter-prefixed reference collected from
the output of the remap is a value of the reference map or appears in a
warning. -/

mutual

theorem remap_closure_obj : ∀ (obj : JVal) (m : List (String × String)) (c : String),
    ∀ r ∈ collect_refs (remap_refs_in_obj obj m c).1 "Encounter/",
      refReported m (remap_refs_in_obj obj m c).2.2 r
  | .str s, m, c => by
      intro r hr
      simp only [remap_str_eq, collect_str_eq] at hr
      simp at hr
  | .num q, m, c => by
      intro r hr
      simp only [remap_num_eq, collect_num_eq] at hr
      simp at hr
  | .bool b, m, c => by
      intro r hr
      simp only [remap_bool_eq, collect_bool_eq] at hr
      simp at hr
  | .null, m, c => by
      intro r hr
      simp only [remap_null_eq, collect_null_eq] at hr
      simp at hr
  | .arr items, m, c => by
      intro r hr
      simp only [remap_arr_eq] at hr ⊢
      rw [collect_arr_eq] at hr
      exact remap_closure_arr items m c 0 r hr
  | .obj fields, m, c => by
      intro r hr
      simp only [remap_obj_eq] at hr ⊢
      rcases hj : jlookup fields "reference" with _ | v
      · have hA : (refStep1 fields m c).1 = .keep := by simp [refStep1, hj]
        rw [hA] at hr ⊢
        rw [collect_obj_eq] at hr
        rcases List.mem_append.mp hr with htop | hfld
        · rcases collect_top_cases _ _ _ htop with ⟨hXs, hp⟩ | ⟨W, hXo, hWo, hp⟩
          · rw [jlookup_splice_keep, hj] at hXs
            simp at hXs
          · exact refReported_mono (fun w hw => List.mem_append_right _ hw)
              (remap_closure_fields .keep fields m c trivial r
                (collect_of_top_obj hXo hWo hp))
        · exact refReported_mono (fun w hw => List.mem_append_right _ hw)
            (remap_closure_fields .keep fields m c trivial r hfld)
      · cases v with
        | str rv =>
            rcases hl : lookupStr m rv with _ | newref
            · by_cases hpf : pyStartsWith rv "Encounter/" = true
              · have hA : (refStep1 fields m c).1 = .keep := by
                  simp [refStep1, hj, hl, hpf]
                have hW : (refStep1 fields m c).2.2 =
                    ["  NOT IN MAP: " ++ rv ++ " in " ++ c] := by
                  simp [refStep1, hj, hl, hpf]
                rw [hA] at hr ⊢
                rw [hW]
                rw [collect_obj_eq] at hr
                rcases List.mem_append.mp hr with htop | hfld
                · rcases collect_top_cases _ _ _ htop with ⟨hXs, hp⟩ | ⟨W, hXo, hWo, hp⟩
                  · rw [jlookup_splice_keep, hj] at hXs
                    simp [remap_str_eq] at hXs
                    subst hXs
                    refine Or.inr ⟨_, List.mem_append_left _ (List.mem_singleton.mpr rfl), ?_⟩
                    exact substrContains_mid _ _ _ _
                  · exact refReported_mono (fun w hw => List.mem_append_right _ hw)
                      (remap_closure_fields .keep fields m c trivial r
                        (collect_of_top_obj hXo hWo hp))
                · exact refReported_mono (fun w hw => List.mem_append_right _ hw)
                    (remap_closure_fields .keep fields m c trivial r hfld)
              · have hA : (refStep1 fields m c).1 = .keep := by
                  simp [refStep1, hj, hl, hpf]
                rw [hA] at hr ⊢
                rw [collect_obj_eq] at hr
                rcases List.mem_append.mp hr with htop | hfld
                · rcases collect_top_cases _ _ _ htop with ⟨hXs, hp⟩ | ⟨W, hXo, hWo, hp⟩
                  · rw [jlookup_splice_keep, hj] at hXs
                    simp [remap_str_eq] at hXs
                    subst hXs
                    exact absurd hp hpf
                  · exact refReported_mono (fun w hw => List.mem_append_right _ hw)
                      (remap_closure_fields .keep fields m c trivial r
                        (collect_of_top_obj hXo hWo hp))
                · exact refReported_mono (fun w hw => List.mem_append_right _ hw)
                    (remap_closure_fields .keep fields m c trivial r hfld)
            · have hA : (refStep1 fields m c).1 = .simpleRepl newref := by
                simp [refStep1, hj, hl]
              rw [hA] at hr ⊢
              rw [collect_obj_eq] at hr
              rcases List.mem_append.mp hr with htop | hfld
              · rcases collect_top_cases _ _ _ htop with ⟨hXs, hp⟩ | ⟨W, hXo, hWo, hp⟩
                · rw [jlookup_splice_simple, hj] at hXs
                  simp at hXs
                  subst hXs
                  exact Or.inl ⟨rv, hl⟩
                · exact refReported_mono (fun w hw => List.mem_append_right _ hw)
                    (remap_closure_fields (.simpleRepl newref) fields m c trivial r
                      (collect_of_top_obj hXo hWo hp))
              · exact refReported_mono (fun w hw => List.mem_append_right _ hw)
                  (remap_closure_fields (.simpleRepl newref) fields m c trivial r hfld)
        | obj inner =>
            rcases hn : jlookup inner "reference" with _ | w
            · have hA : (refStep1 fields m c).1 = .keep := by simp [refStep1, hj, hn]
              rw [hA] at hr ⊢
              rw [collect_obj_eq] at hr
              rcases List.mem_append.mp hr with htop | hfld
              · rcases collect_top_cases _ _ _ htop with ⟨hXs, hp⟩ | ⟨W, hXo, hWo, hp⟩
                · rw [jlookup_splice_keep, hj] at hXs
                  simp [remap_obj_eq] at hXs
                · exact refReported_mono (fun w hw => List.mem_append_right _ hw)
                    (remap_closure_fields .keep fields m c trivial r
                      (collect_of_top_obj hXo hWo hp))
              · exact refReported_mono (fun w hw => List.mem_append_right _ hw)
                  (remap_closure_fields .keep fields m c trivial r hfld)
            · cases w with
              | str nested =>
                  rcases hl2 : lookupStr m nested with _ | newref
                  · by_cases hpf : pyStartsWith nested "Encounter/" = true
                    · have hA : (refStep1 fields m c).1 = .keep := by
                        simp [refStep1, hj, hn, hl2, hpf]
                      rw [hA] at hr ⊢
                      rw [collect_obj_eq] at hr
                      rcases List.mem_append.mp hr with htop | hfld
                      · rcases collect_top_cases _ _ _ htop with ⟨hXs, hp⟩ | ⟨W, hXo, hWo, hp⟩
                        · rw [jlookup_splice_keep, hj] at hXs
                          simp [remap_obj_eq] at hXs
                        · exact refReported_mono (fun w hw => List.mem_append_right _ hw)
                            (remap_closure_fields .keep fields m c trivial r
                              (collect_of_top_obj hXo hWo hp))
                      · exact refReported_mono (fun w hw => List.mem_append_right _ hw)
                          (remap_closure_fields .keep fields m c trivial r hfld)
                    · have hA : (refStep1 fields m c).1 = .keep := by
                        simp [refStep1, hj, hn, hl2, hpf]
                      rw [hA] at hr ⊢
                      rw [collect_obj_eq] at hr
                      rcases List.mem_append.mp hr with htop | hfld
                      · rcases collect_top_cases _ _ _ htop with ⟨hXs, hp⟩ | ⟨W, hXo, hWo, hp⟩
                        · rw [jlookup_splice_keep, hj] at hXs
                          simp [remap_obj_eq] at hXs
                        · exact refReported_mono (fun w hw => List.mem_append_right _ hw)
                            (remap_closure_fields .keep fields m c trivial r
                              (collect_of_top_obj hXo hWo hp))
                      · exact refReported_mono (fun w hw => List.mem_append_right _ hw)
                          (remap_closure_fields .keep fields m c trivial r hfld)
                  · have hA : (refStep1 fields m c).1 = .nestedRepl newref := by
                      simp [refStep1, hj, hn, hl2]
                    have hOK : spliceOK m (.nestedRepl newref) fields :=
                      ⟨⟨nested, hl2⟩, inner, hj⟩
                    rw [hA] at hr ⊢
                    rw [collect_obj_eq] at hr
                    rcases List.mem_append.mp hr with htop | hfld
                    · rcases collect_top_cases _ _ _ htop with ⟨hXs, hp⟩ | ⟨W, hXo, hWo, hp⟩
                      · rw [jlookup_splice_nested fields m c newref inner hj] at hXs
                        simp at hXs
                      · exact refReported_mono (fun w hw => List.mem_append_right _ hw)
                          (remap_closure_fields (.nestedRepl newref) fields m c hOK r
                            (collect_of_top_obj hXo hWo hp))
                    · exact refReported_mono (fun w hw => List.mem_append_right _ hw)
                        (remap_closure_fields (.nestedRepl newref) fields m c hOK r hfld)
              | num q =>
                  have hA : (refStep1 fields m c).1 = .keep := by simp [refStep1, hj, hn]
                  rw [hA] at hr ⊢
                  rw [collect_obj_eq] at hr
                  rcases List.mem_append.mp hr with htop | hfld
                  · rcases collect_top_cases _ _ _ htop with ⟨hXs, hp⟩ | ⟨W, hXo, hWo, hp⟩
                    · rw [jlookup_splice_keep, hj] at hXs
                      simp [remap_obj_eq] at hXs
                    · exact refReported_mono (fun w hw => List.mem_append_right _ hw)
                        (remap_closure_fields .keep fields m c trivial r
                          (collect_of_top_obj hXo hWo hp))
                  · exact refReported_mono (fun w hw => List.mem_append_right _ hw)
                      (remap_closure_fields .keep fields m c trivial r hfld)
              | bool b =>
                  have hA : (refStep1 fields m c).1 = .keep := by simp [refStep1, hj, hn]
                  rw [hA] at hr ⊢
                  rw [collect_obj_eq] at hr
                  rcases List.mem_append.mp hr with htop | hfld
                  · rcases collect_top_cases _ _ _ htop with ⟨hXs, hp⟩ | ⟨W, hXo, hWo, hp⟩
                    · rw [jlookup_splice_keep, hj] at hXs
                      simp [remap_obj_eq] at hXs
                    · exact refReported_mono (fun w hw => List.mem_append_right _ hw)
                        (remap_closure_fields .keep fields m c trivial r
                          (collect_of_top_obj hXo hWo hp))
                  · exact refReported_mono (fun w hw => List.mem_append_right _ hw)
                      (remap_closure_fields .keep fields m c trivial r hfld)
              | null =>
                  have hA : (refStep1 fields m c).1 = .keep := by simp [refStep1, hj, hn]
                  rw [hA] at hr ⊢
                  rw [collect_obj_eq] at hr
                  rcases List.mem_append.mp hr with htop | hfld
                  · rcases collect_top_cases _ _ _ htop with ⟨hXs, hp⟩ | ⟨W, hXo, hWo, hp⟩
                    · rw [jlookup_splice_keep, hj] at hXs
                      simp [remap_obj_eq] at hXs
                    · exact refReported_mono (fun w hw => List.mem_append_right _ hw)
                        (remap_closure_fields .keep fields m c trivial r
                          (collect_of_top_obj hXo hWo hp))
                  · exact refReported_mono (fun w hw => List.mem_append_right _ hw)
                      (remap_closure_fields .keep fields m c trivial r hfld)
              | obj inner2 =>
                  have hA : (refStep1 fields m c).1 = .keep := by simp [refStep1, hj, hn]
                  rw [hA] at hr ⊢
                  rw [collect_obj_eq] at hr
                  rcases List.mem_append.mp hr with htop | hfld
                  · rcases collect_top_cases _ _ _ htop with ⟨hXs, hp⟩ | ⟨W, hXo, hWo, hp⟩
                    · rw [jlookup_splice_keep, hj] at hXs
                      simp [remap_obj_eq] at hXs
                    · exact refReported_mono (fun w hw => List.mem_append_right _ hw)
                        (remap_closure_fields .keep fields m c trivial r
                          (collect_of_top_obj hXo hWo hp))
                  · exact refReported_mono (fun w hw => List.mem_append_right _ hw)
                      (remap_closure_fields .keep fields m c trivial r hfld)
              | arr items2 =>
                  have hA : (refStep1 fields m c).1 = .keep := by simp [refStep1, hj, hn]
                  rw [hA] at hr ⊢
                  rw [collect_obj_eq] at hr
                  rcases List.mem_append.mp hr with htop | hfld
                  · rcases collect_top_cases _ _ _ htop with ⟨hXs, hp⟩ | ⟨W, hXo, hWo, hp⟩
                    · rw [jlookup_splice_keep, hj] at hXs
                      simp [remap_obj_eq] at hXs
                    · exact refReported_mono (fun w hw => List.mem_append_right _ hw)
                        (remap_closure_fields .keep fields m c trivial r
                          (collect_of_top_obj hXo hWo hp))
                  · exact refReported_mono (fun w hw => List.mem_append_right _ hw)
                      (remap_closure_fields .keep fields m c trivial r hfld)
        | num q =>
            have hA : (refStep1 fields m c).1 = .keep := by simp [refStep1, hj]
            rw [hA] at hr ⊢
            rw [collect_obj_eq] at hr
            rcases List.mem_append.mp hr with htop | hfld
            · rcases collect_top_cases _ _ _ htop with ⟨hXs, hp⟩ | ⟨W, hXo, hWo, hp⟩
              · rw [jlookup_splice_keep, hj] at hXs
                simp [remap_num_eq] at hXs
              · exact refReported_mono (fun w hw => List.mem_append_right _ hw)
                  (remap_closure_fields .keep fields m c trivial r
                    (collect_of_top_obj hXo hWo hp))
            · exact refReported_mono (fun w hw => List.mem_append_right _ hw)
                (remap_closure_fields .keep fields m c trivial r hfld)
        | bool b =>
            have hA : (refStep1 fields m c).1 = .keep := by simp [refStep1, hj]
            rw [hA] at hr ⊢
            rw [collect_obj_eq] at hr
            rcases List.mem_append.mp hr with htop | hfld
            · rcases collect_top_cases _ _ _ htop with ⟨hXs, hp⟩ | ⟨W, hXo, hWo, hp⟩
              · rw [jlookup_splice_keep, hj] at hXs
                simp [remap_bool_eq] at hXs
              · exact refReported_mono (fun w hw => List.mem_append_right _ hw)
                  (remap_closure_fields .keep fields m c trivial r
                    (collect_of_top_obj hXo hWo hp))
            · exact refReported_mono (fun w hw => List.mem_append_right _ hw)
                (remap_closure_fields .keep fields m c trivial r hfld)
        | null =>
            have hA : (refStep1 fields m c).1 = .keep := by simp [refStep1, hj]
            rw [hA] at hr ⊢
            rw [collect_obj_eq] at hr
            rcases List.mem_append.mp hr with htop | hfld
            · rcases collect_top_cases _ _ _ htop with ⟨hXs, hp⟩ | ⟨W, hXo, hWo, hp⟩
              · rw [jlookup_splice_keep, hj] at hXs
                simp [remap_null_eq] at hXs
              · exact refReported_mono (fun w hw => List.mem_append_right _ hw)
                  (remap_closure_fields .keep fields m c trivial r
                    (collect_of_top_obj hXo hWo hp))
            · exact refReported_mono (fun w hw => List.mem_append_right _ hw)
                (remap_closure_fields .keep fields m c trivial r hfld)
        | arr items =>
            have hA : (refStep1 fields m c).1 = .keep := by simp [refStep1, hj]
            rw [hA] at hr ⊢
            rw [collect_obj_eq] at hr
            rcases List.mem_append.mp hr with htop | hfld
            · rcases collect_top_cases _ _ _ htop with ⟨hXs, hp⟩ | ⟨W, hXo, hWo, hp⟩
              · rw [jlookup_splice_keep, hj] at hXs
                simp [remap_arr_eq] at hXs
              · exact refReported_mono (fun w hw => List.mem_append_right _ hw)
                  (remap_closure_fields .keep fields m c trivial r
                    (collect_of_top_obj hXo hWo hp))
            · exact refReported_mono (fun w hw => List.mem_append_right _ hw)
                (remap_closure_fields .keep fields m c trivial r hfld)

theorem remap_closure_fields : ∀ (sub : RefAction) (F : JObj)
    (m : List (String × String)) (c : String), spliceOK m sub F →
    ∀ r ∈ collect_refs_fields (remap_fields_splice sub F m c).1 "Encounter/",
      refReported m (remap_fields_splice sub F m c).2.2 r
  | sub, [], m, c => by
      intro _ r hr
      rw [splice_nil_eq] at hr
      simp [collect_fields_nil_eq] at hr
  | .keep, (k, v) :: rest, m, c => by
      intro _ r hr
      rw [splice_keep_cons] at hr ⊢
      rw [collect_fields_cons_eq] at hr
      rcases List.mem_append.mp hr with h1 | h2
      · exact refReported_mono (fun w hw => List.mem_append_left _ hw)
          (remap_closure_obj v m (c ++ "." ++ k) r h1)
      · exact refReported_mono (fun w hw => List.mem_append_right _ hw)
          (remap_closure_fields .keep rest m c trivial r h2)
  | .simpleRepl n, (k, v) :: rest, m, c => by
      intro _ r hr
      by_cases hk : k = "reference"
      · subst hk
        rw [splice_simple_cons_ref] at hr ⊢
        rw [collect_fields_cons_eq] at hr
        rcases List.mem_append.mp hr with h1 | h2
        · rw [collect_str_eq] at h1
          simp at h1
        · exact remap_closure_fields .keep rest m c trivial r h2
      · rw [splice_simple_cons_ne hk] at hr ⊢
        rw [collect_fields_cons_eq] at hr
        rcases List.mem_append.mp hr with h1 | h2
        · exact refReported_mono (fun w hw => List.mem_append_left _ hw)
            (remap_closure_obj v m (c ++ "." ++ k) r h1)
        · exact refReported_mono (fun w hw => List.mem_append_right _ hw)
            (remap_closure_fields (.simpleRepl n) rest m c trivial r h2)
  | .nestedRepl n, (k, v) :: rest, m, c => by
      intro hOK r hr
      obtain ⟨hn, inner0, hj0⟩ := hOK
      by_cases hk : k = "reference"
      · subst hk
        cases v with
        | obj inner =>
            obtain ⟨f, haf, hforig⟩ := nestedSecondPass_spec m n (c ++ "." ++ "reference")
            rw [splice_nested_cons_ref_obj] at hr ⊢
            rw [haf] at hr ⊢
            rw [collect_fields_cons_eq] at hr
            rcases List.mem_append.mp hr with h1 | h2
            · rw [collect_obj_eq] at h1
              rcases List.mem_append.mp h1 with htop | hfld2
              · rcases collect_top_cases _ _ _ htop with ⟨hXs, hp⟩ | ⟨W, hXo, hWo, hp⟩
                · rw [jlookup_splice_simple] at hXs
                  rcases hn2 : jlookup inner "reference" with _ | w2
                  · rw [hn2] at hXs
                    simp at hXs
                  · rw [hn2] at hXs
                    simp at hXs
                    rcases hforig with ⟨k0, hk0⟩ | hfn
                    · exact Or.inl ⟨k0, by rw [hk0, hXs]⟩
                    · obtain ⟨k1, hk1⟩ := hn
                      exact Or.inl ⟨k1, by rw [hk1, ← hfn, hXs]⟩
                · exact refReported_mono
                    (fun w hw => List.mem_append_left _ (List.mem_append_right _ hw))
                    (remap_closure_fields (.simpleRepl f) inner m (c ++ "." ++ "reference")
                      trivial r (collect_of_top_obj hXo hWo hp))
              · exact refReported_mono
                  (fun w hw => List.mem_append_left _ (List.mem_append_right _ hw))
                  (remap_closure_fields (.simpleRepl f) inner m (c ++ "." ++ "reference")
                    trivial r hfld2)
            · exact refReported_mono (fun w hw => List.mem_append_right _ hw)
                (remap_closure_fields .keep rest m c trivial r h2)
        | str s => exact absurd hj0 (by simp [jlookup])
        | num q => exact absurd hj0 (by simp [jlookup])
        | bool b => exact absurd hj0 (by simp [jlookup])
        | null => exact absurd hj0 (by simp [jlookup])
        | arr items => exact absurd hj0 (by simp [jlookup])
      · have hj0' : jlookup rest "reference" = some (.obj inner0) := by
          simpa [jlookup, hk] using hj0
        rw [splice_nested_cons_ne hk] at hr ⊢
        rw [collect_fields_cons_eq] at hr
        rcases List.mem_append.mp hr with h1 | h2
        · exact refReported_mono (fun w hw => List.mem_append_left _ hw)
            (remap_closure_obj v m (c ++ "." ++ k) r h1)
        · exact refReported_mono (fun w hw => List.mem_append_right _ hw)
            (remap_closure_fields (.nestedRepl n) rest m c ⟨hn, inner0, hj0'⟩ r h2)

theorem remap_closure_arr : ∀ (items : List JVal) (m : List (String × String))
    (c : String) (i : Nat),
    ∀ r ∈ collect_refs_arr (remap_refs_arr items m c i).1 "Encounter/",
      refReported m (remap_refs_arr items m c i).2.2 r
  | [], m, c, i => by
      intro r hr
      rw [remap_arr_nil_eq] at hr
      simp [collect_arr_nil_eq] at hr
  | v :: rest, m, c, i => by
      intro r hr
      simp only [remap_arr_cons_eq] at hr ⊢
      rw [collect_arr_cons_eq] at hr
      rcases List.mem_append.mp hr with h1 | h2
      · exact refReported_mono (fun w hw => List.mem_append_left _ hw)
          (remap_closure_obj v m (c ++ "[" ++ pyNatRepr i ++ "]") r h1)
      · exact refReported_mono (fun w hw => List.mem_append_right _ hw)
          (remap_closure_arr rest m c (i + 1) r h2)

end

/-- C1 (amended): Encounter-scoped reference closure of the remap pass. For
every Encounter-prefixed reference (simple or nested) remaining in the output
of `_remap_refs_in_obj`, either the reference is a value of the reference map
(the canonical fullUrl some reference was rewritten to), or some appended
warning mentions the reference (the NOT IN MAP diagnostics). References of
other resource types enjoy no such guarantee (see the counterexample). -/
theorem C1_encounter_reference_closure (obj : JVal)
    (ref_map : List (String × String)) (context : String) :
    ∀ r ∈ collect_refs (remap_refs_in_obj obj ref_map context).1 "Encounter/",
      (∃ k, lookupStr ref_map k = some r) ∨
      (∃ w ∈ (remap_refs_in_obj obj ref_map context).2.2, substrContains w r = true) :=
  fun r hr => remap_closure_obj obj ref_map context r hr

theorem C1_encounter_reference_closure_witness :
    (∃ k, lookupStr ([] : List (String × String)) k = some "Encounter/e9") ∨
    (∃ w ∈ (remap_refs_in_obj (.obj [("reference", .str "Encounter/e9")]) []
        "Observation/o1").2.2, substrContains w "Encounter/e9" = true) :=
  C1_encounter_reference_closure (.obj [("reference", .str "Encounter/e9")]) []
    "Observation/o1" "Encounter/e9" (by decide)

/-- A bundle whose Observation carries a reference to a Practitioner that has
no entry in the bundle. -/
def danglingPractitionerBundle : JVal :=
  .obj [("resourceType", .str "Bundle"),
        ("type", .str "collection"),
        ("entry", .arr [
          .obj [("fullUrl", .str "urn:uuid:obs-1"),
                ("resource", .obj [
                  ("resourceType", .str "Observation"),
                  ("id", .str "obs-1"),
                  ("performer", .arr [.obj [("reference", .str "Practitioner/p1")]])])]])]

/-- C1 counterexample: the spec's unscoped reference-closure claim fails. A
dangling `Practitioner/p1` reference survives `add_identifiers_to_bundle`
(the output's only entry is the Observation itself, so the reference resolves
to no entry), yet no returned warning mentions it. -/
theorem C1_reference_closure_counterexample :
    (find_unrewritten_refs (add_identifiers_to_bundle danglingPractitionerBundle
        "pat-1").1 "Practitioner/" = ["Practitioner/p1 (in Observation/obs-1)"]) ∧
    ((jentries (add_identifiers_to_bundle danglingPractitionerBundle "pat-1").1).map
       (fun e => ((e.getStr? "fullUrl"),
         ((e.getD "resource" (.obj [])).getStr? "resourceType"),
         ((e.getD "resource" (.obj [])).getStr? "id"))) =
       [(some "urn:uuid:obs-1", some "Observation", some "obs-1")]) ∧
    ((add_identifiers_to_bundle danglingPractitionerBundle "pat-1").2.all
       (fun w => !substrContains w "Practitioner/p1")) = true := by
  decide

/-! Duplicate collapse in `add_identifiers_to_bundle`: supporting lemmas and
the two-Condition scenario. -/

theorem truthyStr_some_of_ne {s : String} (h : ¬ s = "") :
    truthyStr (some s) = some s := by
  rw [truthyStr.eq_def]
  split
  · rename_i heq
    injection heq with heq
    exact absurd heq h
  · rename_i heq
    exact absurd heq (by simp)
  · rename_i heq
    exact heq.symm

theorem strAppend_left_cancel {a b c : String} (h : a ++ b = a ++ c) : b = c := by
  have hd : a.data ++ b.data = a.data ++ c.data := congrArg String.data h
  have hbc := List.append_cancel_left hd
  cases b
  cases c
  exact congrArg String.mk (by simpa using hbc)

theorem strAppend_ne_of_data_head (x y : String) (ca cb : Char)
    (as bs : List Char) {a b : String}
    (ha : a.data = ca :: as) (hb : b.data = cb :: bs) (hne : ca ≠ cb) :
    a ++ x ≠ b ++ y := by
  intro he
  have hd : a.data ++ x.data = b.data ++ y.data := congrArg String.data he
  rw [ha, hb] at hd
  simp at hd
  exact hne hd.1

theorem pyStartsWith_empty (s : String) : pyStartsWith s "" = true := by
  simp [pyStartsWith, List.isPrefixOf]

/-- A Condition entry carrying a fullUrl, a local id, a first coding code and
an onset dateTime. -/
def mkConditionEntry (u rid code dstr : String) : JVal :=
  .obj [("fullUrl", .str u),
        ("resource", .obj [
          ("resourceType", .str "Condition"),
          ("id", .str rid),
          ("code", .obj [("coding", .arr [.obj [("code", .str code)]])]),
          ("onsetDateTime", .str dstr)])]

/-- An Observation entry holding two references (one per target form). -/
def mkObservationRefEntry (u rid t1 t2 : String) : JVal :=
  .obj [("fullUrl", .str u),
        ("resource", .obj [
          ("resourceType", .str "Observation"),
          ("id", .str rid),
          ("focus", .arr [.obj [("reference", .str t1)],
                          .obj [("reference", .str t2)]])])]

/-- Two Conditions with identical subject/code/onset but different local ids
and fullUrls, plus an Observation referencing the second Condition both by
fullUrl and by `Condition/{id}`. -/
def dupConditionBundle (code dstr id1 u1 id2 u2 id3 u3 : String) : JVal :=
  .obj [("resourceType", .str "Bundle"),
        ("entry", .arr [
          mkConditionEntry u1 id1 code dstr,
          mkConditionEntry u2 id2 code dstr,
          mkObservationRefEntry u3 id3 u2 ("Condition/" ++ id2)])]

theorem truthyStr_none_eq : truthyStr none = none := rfl

theorem extract_date_none_eq : extract_date none = none := rfl

/-- The output bundle of `add_identifiers_to_bundle` on the two-Condition
duplicate scenario. -/
def c2out (pid code dstr id1 u1 id2 u2 id3 u3 : String) : JVal :=
  (add_identifiers_to_bundle (dupConditionBundle code dstr id1 u1 id2 u2 id3 u3) pid).1

set_option maxHeartbeats 1600000 in
/-- C2: duplicate collapse. Two Condition entries with identical subject, code
and onset date (hence the same stable identifier) but different local ids and
fullUrls: the first survives in the output bundle with its fullUrl, the second
is removed, and an Observation's references to the removed entry — one by its
fullUrl, one by its `Condition/{id}` form — are both rewritten to the surviving
entry's fullUrl. The disequality hypotheses say the ids, fullUrls and
`ResourceType/id` keys of the three entries do not collide. -/
theorem C2_duplicate_collapse
    (pid code dstr : String) (d : PyDate) (id1 u1 id2 u2 id3 u3 : String)
    (hcode : code ≠ "") (hd : extract_date (some dstr) = some d)
    (hid1 : id1 ≠ "") (hid2 : id2 ≠ "") (hid3 : id3 ≠ "")
    (hu1 : u1 ≠ "") (hu2ne : u2 ≠ "") (hu3 : u3 ≠ "")
    (hid12 : id1 ≠ id2)
    (h1 : "Condition/" ++ id1 ≠ u1) (h2 : "Condition/" ++ id2 ≠ u2)
    (h3 : "Observation/" ++ id3 ≠ u3)
    (hu2k1 : u2 ≠ "Condition/" ++ id1) (hu2k3 : u2 ≠ "Observation/" ++ id3) :
    ((jentries (c2out pid code dstr id1 u1 id2 u2 id3 u3)).map
       (fun e => (e.getStr? "fullUrl", (e.getD "resource" (.obj [])).getStr? "id")) =
      [(some u1, some id1), (some u3, some id3)]) ∧
    ((jentries (c2out pid code dstr id1 u1 id2 u2 id3 u3)).map
       (fun e => collect_refs (e.getD "resource" (.obj [])) "") =
      [[], [u1, u1]]) := by
  have hds : ¬ dstr = "" := by
    intro h0
    rw [h0] at hd
    simp [extract_date, truthyStr] at hd
  have hk12 : ¬ ("Condition/" ++ id1 = "Condition/" ++ id2) :=
    fun h0 => hid12 (strAppend_left_cancel h0)
  have hk13 : "Condition/" ++ id1 ≠ "Observation/" ++ id3 :=
    strAppend_ne_of_data_head id1 id3 'C' 'O' "ondition/".data "bservation/".data
      rfl rfl (by decide)
  have hk23 : "Condition/" ++ id2 ≠ "Observation/" ++ id3 :=
    strAppend_ne_of_data_head id2 id3 'C' 'O' "ondition/".data "bservation/".data
      rfl rfl (by decide)
  have h1s := Ne.symm h1
  have h2s := Ne.symm h2
  have h3s := Ne.symm h3
  have hu2k2 := Ne.symm h2
  have hk12s := Ne.symm hk12
  have hk13s := Ne.symm hk13
  have hk23s := Ne.symm hk23
  have hu2k1s := Ne.symm hu2k1
  have hu2k3s := Ne.symm hu2k3
  constructor <;>
  simp [c2out, add_identifiers_to_bundle, dupConditionBundle, mkConditionEntry,
    mkObservationRefEntry, jentries, JVal.set, JVal.get?, JVal.getD, JVal.getStr?,
    JVal.hasKey, jsetField, jlookup, pass1_collect, pass2, process_entry_identifiers,
    compute_identifier, extract_code, pyOrStr, hd, truthyStr_some_of_ne,
    add_identifier_to_resource, ResourceIdentifier.to_fhir, lookupStr, dictSetStr,
    build_ref_map, remap_references, remap_obj_eq, remap_str_eq, remap_num_eq,
    remap_bool_eq, remap_null_eq, remap_arr_eq, remap_arr_nil_eq, remap_arr_cons_eq,
    refStep1, splice_nil_eq, splice_keep_cons, splice_simple_cons_ref,
    splice_simple_cons_ne, jtruthyOpt, jtruthy, collect_obj_eq, collect_str_eq,
    collect_num_eq, collect_bool_eq, collect_null_eq, collect_arr_eq,
    collect_fields_nil_eq, collect_fields_cons_eq, collect_arr_nil_eq,
    collect_arr_cons_eq, pyStartsWith_empty, truthyStr_none_eq,
    extract_date_none_eq, hcode, hds, hid1, hid2, hid3,
    hu1, hu2ne, hu3, hk12, hk13, hk23, h1, h2, h3, hu2k1, hu2k3,
    h1s, h2s, h3s, hu2k2, hk12s, hk13s, hk23s, hu2k1s, hu2k3s]

theorem C2_duplicate_collapse_witness :
    ((jentries (c2out "pat-1" "E11" "2020-03-04" "c1" "urn:uuid:a1" "c2"
        "urn:uuid:a2" "o3" "urn:uuid:a3")).map
       (fun e => (e.getStr? "fullUrl", (e.getD "resource" (.obj [])).getStr? "id")) =
      [(some "urn:uuid:a1", some "c1"), (some "urn:uuid:a3", some "o3")]) ∧
    ((jentries (c2out "pat-1" "E11" "2020-03-04" "c1" "urn:uuid:a1" "c2"
        "urn:uuid:a2" "o3" "urn:uuid:a3")).map
       (fun e => collect_refs (e.getD "resource" (.obj [])) "") =
      [[], ["urn:uuid:a1", "urn:uuid:a1"]]) :=
  C2_duplicate_collapse "pat-1" "E11" "2020-03-04" ⟨2020, 3, 4⟩ "c1" "urn:uuid:a1"
    "c2" "urn:uuid:a2" "o3" "urn:uuid:a3" (by decide) (by decide) (by decide)
    (by decide) (by decide) (by decide) (by decide) (by decide) (by decide)
    (by decide) (by decide) (by decide) (by decide) (by decide)

/-! ## C-CDA dose-range sanitization (`ccda_preprocessor.py`) and the FHIR-side
dose-range restoration (`gateway.py`). XML elements are embedded as a tree of
tag / attribute-dict / children (serialization is not modeled); `float` values
are embedded as rationals, exact on the decimal strings whose arithmetic is
exact in binary floating point (the theorems below are stated on integer
bounds, where the model coincides with the source's float behaviour). `\d` and
`\s` are modeled over ASCII. -/

inductive XElem where
  | mk (tag : String) (attrs : List (String × String)) (children : List XElem)

def XElem.tag : XElem → String
  | .mk t _ _ => t

def XElem.attrs : XElem → List (String × String)
  | .mk _ a _ => a

def XElem.children : XElem → List XElem
  | .mk _ _ c => c

/-- `elem.tag.split("}")[-1]`: the characters after the last `}`. -/
def localTag (t : String) : String :=
  ⟨t.data.foldl (fun acc c => if c = '}' then [] else acc ++ [c]) []⟩

/-- `s.endswith(p)`. -/
def pyEndsWith (s p : String) : Bool := p.data.isSuffixOf s.data

def delStrKey (d : List (String × String)) (k : String) : List (String × String) :=
  match d with
  | [] => []
  | (k', v) :: rest => if k' = k then rest else (k', v) :: delStrKey rest k

/-- Python `\s` over ASCII. -/
def pyWs (c : Char) : Bool :=
  c == ' ' || c == '\t' || c == '\n' || c == '\r' ||
    c == Char.ofNat 11 || c == Char.ofNat 12

/-- Consume `-?\d+(?:\.\d+)?` from the front: the matched characters and the
rest (the fractional part is taken only when a digit follows the dot, like the
backtracking regex). -/
def matchNumSplit (l : List Char) : Option (List Char × List Char) :=
  let sgn : List Char × List Char :=
    match l with
    | '-' :: t => (['-'], t)
    | _ => ([], l)
  let ds := sgn.2.takeWhile Char.isDigit
  let r1 := sgn.2.dropWhile Char.isDigit
  if ds.isEmpty then none
  else
    match r1 with
    | '.' :: t2 =>
        let fs := t2.takeWhile Char.isDigit
        if fs.isEmpty then some (sgn.1 ++ ds, r1)
        else some (sgn.1 ++ ds ++ '.' :: fs, t2.drop fs.length)
    | _ => some (sgn.1 ++ ds, r1)

/-- `NUMERIC_PATTERN.match(value)`: full match of `^-?\d+(\.\d+)?$`. -/
def numericMatch (s : String) : Bool :=
  match matchNumSplit s.data with
  | some (_, []) => true
  | _ => false

/-- `RANGE_PATTERN.match(value)`: `^(-?\d+(?:\.\d+)?)\s*-\s*(-?\d+(?:\.\d+)?)$`,
returning the two number groups. -/
def rangeMatch (s : String) : Option (String × String) :=
  match matchNumSplit s.data with
  | some (n1, r1) =>
      (match r1.dropWhile pyWs with
       | '-' :: r3 =>
           (match matchNumSplit (r3.dropWhile pyWs) with
            | some (n2, []) => some (⟨n1⟩, ⟨n2⟩)
            | _ => none)
       | _ => none)
  | none => none

/-- `FIRST_NUMBER_PATTERN.match(value)`: the leading number, if any. -/
def firstNumber (s : String) : Option String :=
  match matchNumSplit s.data with
  | some (n, _) => some (⟨n⟩ : String)
  | none => none

def digitsToNat (l : List Char) : Nat :=
  l.foldl (fun a c => a * 10 + (c.toNat - 48)) 0

/-- `float` of a matched decimal string, as an exact rational. -/
def parseDecimal (s : String) : Rat :=
  let core : List Char → Rat := fun l =>
    let ip := l.takeWhile Char.isDigit
    let rest := l.dropWhile Char.isDigit
    match rest with
    | '.' :: f => (digitsToNat ip : Rat) + (digitsToNat f : Rat) / ((10 : Rat) ^ f.length)
    | _ => (digitsToNat ip : Rat)
  match s.data with
  | '-' :: t => -(core t)
  | t => core t

def pyIntRepr (i : Int) : String :=
  if i < 0 then "-" ++ pyNatRepr i.natAbs else pyNatRepr i.natAbs

def decimalFracDigits (fuel num den : Nat) : List Char :=
  match fuel with
  | 0 => []
  | fuel + 1 =>
      if num = 0 then []
      else digitChar ((num * 10) / den) :: decimalFracDigits fuel ((num * 10) % den) den

/-- `str(float)` on a terminating decimal (the exact cases of the model). -/
def pyFloatRepr (q : Rat) : String :=
  (if q.num < 0 then "-" else "") ++ pyNatRepr (q.num.natAbs / q.den) ++ "." ++
    (⟨decimalFracDigits 30 (q.num.natAbs % q.den) q.den⟩ : String)

/-- `str(int(avg)) if avg == int(avg) else str(avg)`. -/
def formatAvg (q : Rat) : String :=
  if q.den = 1 then pyIntRepr q.num else pyFloatRepr q

structure DoseRangeInfo where
  low : Rat
  high : Rat
  unit : Option String
  medication_code : Option String
deriving DecidableEq, Repr

/-- First `code` grandchild-attr along
`consumable/manufacturedProduct/manufacturedMaterial/code` (the source's
`endswith` tag checks, returning the first code element's attribute even when
that attribute is absent). -/
def findCode4 : List XElem → Option (Option String)
  | [] => none
  | c :: rest =>
      if pyEndsWith c.tag "code" then some (lookupStr c.attrs "code")
      else findCode4 rest

def findCode3 : List XElem → Option (Option String)
  | [] => none
  | c :: rest =>
      if pyEndsWith c.tag "manufacturedMaterial" then
        match findCode4 c.children with
        | some r => some r
        | none => findCode3 rest
      else findCode3 rest

def findCode2 : List XElem → Option (Option String)
  | [] => none
  | c :: rest =>
      if pyEndsWith c.tag "manufacturedProduct" then
        match findCode3 c.children with
        | some r => some r
        | none => findCode2 rest
      else findCode2 rest

def findCode1 : List XElem → Option (Option String)
  | [] => none
  | c :: rest =>
      if pyEndsWith c.tag "consumable" then
        match findCode2 c.children with
        | some r => some r
        | none => findCode1 rest
      else findCode1 rest

/-- `_find_medication_code` from a `substanceAdministration`'s children. -/
def findMedCode (children : List XElem) : Option String :=
  match findCode1 children with
  | some r => r
  | none => none

/-- The per-element body of `_fix_numeric_value_attributes` for one element
name: fix a non-numeric value attribute (range average, first number, or
nullFlavor), recording a `DoseRangeInfo` for doseQuantity ranges. `ctx` is the
medication code of the nearest enclosing `substanceAdministration`. -/
def processValueAttr (name : String) (attrs : List (String × String))
    (ctx : Option String) :
    List (String × String) × List String × List DoseRangeInfo :=
  match lookupStr attrs "value" with
  | none => (attrs, [], [])
  | some v =>
      if numericMatch v then (attrs, [], [])
      else
        match rangeMatch v with
        | some (g1, g2) =>
            let low := parseDecimal g1
            let high := parseDecimal g2
            let new_value := formatAvg ((low + high) / 2)
            let ranges : List DoseRangeInfo :=
              if name = "doseQuantity" then
                [⟨low, high, lookupStr attrs "unit", ctx⟩]
              else []
            (dictSetStr attrs "value" new_value,
             ["Sanitized " ++ name ++ "/@value: '" ++ v ++ "' -> '" ++
                new_value ++ "' (will use doseRange)"],
             ranges)
        | none =>
            match firstNumber v with
            | some n =>
                (dictSetStr attrs "value" n,
                 ["Sanitized " ++ name ++ "/@value: '" ++ v ++ "' -> '" ++ n ++ "'"],
                 [])
            | none =>
                (dictSetStr (delStrKey attrs "value") "nullFlavor" "NI",
                 ["Sanitized " ++ name ++ "/@value: '" ++ v ++
                    "' -> nullFlavor='NI'"],
                 [])

/-! One pass of `_fix_numeric_value_attributes` for a fixed element name, in
document (pre-)order, carrying the innermost enclosing
`substanceAdministration`'s medication code for the parent-map walk. -/

mutual
def fixElem (name : String) (ctx : Option String) (e : XElem) :
    XElem × List String × List DoseRangeInfo :=
  match e with
  | .mk tag attrs children =>
      let ctx2 := if localTag tag = "substanceAdministration"
        then findMedCode children else ctx
      let selfRes :=
        if localTag tag = name then processValueAttr name attrs ctx
        else (attrs, [], [])
      let childRes := fixChildren name ctx2 children
      (.mk tag selfRes.1 childRes.1,
       selfRes.2.1 ++ childRes.2.1,
       selfRes.2.2 ++ childRes.2.2)
def fixChildren (name : String) (ctx : Option String) :
    List XElem → List XElem × List String × List DoseRangeInfo
  | [] => ([], [], [])
  | c :: rest =>
      let r1 := fixElem name ctx c
      let r2 := fixChildren name ctx rest
      (r1.1 :: r2.1, r1.2.1 ++ r2.2.1, r1.2.2 ++ r2.2.2)
end

/-- `_fix_numeric_value_attributes`: the four NUMERIC_VALUE_ELEMENTS passes in
order. -/
def fix_numeric_value_attributes (root : XElem) :
    XElem × List String × List DoseRangeInfo :=
  let r1 := fixElem "doseQuantity" none root
  let r2 := fixElem "rateQuantity" none r1.1
  let r3 := fixElem "maxDoseQuantity" none r2.1
  let r4 := fixElem "quantity" none r3.1
  (r4.1, r1.2.1 ++ r2.2.1 ++ r3.2.1 ++ r4.2.1,
   r1.2.2 ++ r2.2.2 ++ r3.2.2 ++ r4.2.2)

/-- First coding with a truthy (string) `code`. -/
def firstTruthyCode : List JVal → Option String
  | [] => none
  | c :: rest =>
      match truthyStr (c.getStr? "code") with
      | some s => some s
      | none => firstTruthyCode rest

/-- The Medication-entry scan of `_get_medication_code_from_statement`: a
matching entry whose code resource holds no truthy coding code falls through
to later entries. -/
def medSearch (ref_str : String) : List JVal → Option String
  | [] => none
  | entry :: rest =>
      let resource := entry.getD "resource" (.obj [])
      match resource.get? "resourceType" with
      | some (.str "Medication") =>
          let med_id := resource.getStr? "id"
          let full_url := (entry.getStr? "fullUrl").getD ""
          let idRender := match med_id with
            | some s => s
            | none => "None"
          let cond := (ref_str == "Medication/" ++ idRender) || (ref_str == full_url) ||
            (match truthyStr med_id with
             | some mid => pyEndsWith ref_str mid
             | none => false)
          if cond then
            match firstTruthyCode (match (resource.getD "code" (.obj [])).get? "coding" with
              | some (.arr l) => l
              | _ => []) with
            | some c => some c
            | none => medSearch ref_str rest
          else medSearch ref_str rest
      | _ => medSearch ref_str rest

/-- `_get_medication_code_from_statement` (string-valued reference forms). -/
def get_medication_code_from_statement (med_statement bundle : JVal) : Option String :=
  let medication := med_statement.getD "medication" (.obj [])
  let concept := medication.getD "concept" (.obj [])
  let codings := match concept.get? "coding" with
    | some (.arr l) => l
    | _ => []
  match firstTruthyCode codings with
  | some c => some c
  | none =>
      let refOpt : Option String :=
        match medication.get? "reference" with
        | some (.obj f) =>
            (match jlookup f "reference" with
             | some (.str s) => some s
             | _ => none)
        | some (.str s) => some s
        | _ => none
      match truthyStr refOpt with
      | some ref_str => medSearch ref_str (jentries bundle)
      | none => none

def addRangeIdx (m : List (String × List Nat)) (k : String) (i : Nat) :
    List (String × List Nat) :=
  match m with
  | [] => [(k, [i])]
  | (k', l) :: rest =>
      if k' = k then (k', l ++ [i]) :: rest else (k', l) :: addRangeIdx rest k i

/-- `ranges_by_code`, with ranges identified by their index in `dose_ranges`
(the source keys `used_ranges` by object identity, which the index models). -/
def buildRangesByCodeAux : Nat → List DoseRangeInfo → List (String × List Nat) →
    List (String × List Nat)
  | _, [], m => m
  | i, dr :: rest, m =>
      match truthyStr dr.medication_code with
      | some c => buildRangesByCodeAux (i + 1) rest (addRangeIdx m c i)
      | none => buildRangesByCodeAux (i + 1) rest m

def buildRangesByCode (drs : List DoseRangeInfo) : List (String × List Nat) :=
  buildRangesByCodeAux 0 drs []

def lookupRangeIdx (m : List (String × List Nat)) (k : String) : Option (List Nat) :=
  match m with
  | [] => none
  | (k', l) :: rest => if k' = k then some l else lookupRangeIdx rest k

def pickUnused (idxs used : List Nat) : Option Nat :=
  match idxs with
  | [] => none
  | i :: rest => if used.contains i then pickUnused rest used else some i

/-- Convert one doseAndRate element: build the doseRange (with the
doseQuantity's unit, else the recorded one, when truthy), then delete the
doseQuantity. -/
def convertDnr (dnr : JVal) (ri : DoseRangeInfo) : JVal :=
  let dq := dnr.getD "doseQuantity" (.obj [])
  let u0 := pyOrStr (dq.getStr? "unit") ri.unit
  let dr := match truthyStr u0 with
    | some u =>
        JVal.obj [("low", .obj [("value", .num ri.low), ("unit", .str u)]),
                  ("high", .obj [("value", .num ri.high), ("unit", .str u)])]
    | none =>
        JVal.obj [("low", .obj [("value", .num ri.low)]),
                  ("high", .obj [("value", .num ri.high)])]
  (dnr.set "doseRange" dr).del "doseQuantity"

/-- The inner doseAndRate loop: the first truthy doseQuantity is converted and
the loop breaks (later doseAndRate entries of the same dosage are untouched). -/
def convertDoseAndRate (dnrs : List JVal) (ri : DoseRangeInfo) : List JVal :=
  match dnrs with
  | [] => []
  | dnr :: rest =>
      if jtruthyOpt (dnr.get? "doseQuantity") then convertDnr dnr ri :: rest
      else dnr :: convertDoseAndRate rest ri

def convertDosage (dosage : JVal) (ri : DoseRangeInfo) : JVal :=
  match dosage.get? "doseAndRate" with
  | some (.arr l) => dosage.set "doseAndRate" (.arr (convertDoseAndRate l ri))
  | _ => dosage

def convertStmtResource (resource : JVal) (ri : DoseRangeInfo) : JVal :=
  match resource.get? "dosage" with
  | some (.arr ds) => resource.set "dosage" (.arr (ds.map (fun d => convertDosage d ri)))
  | _ => resource

/-- `_convert_dose_quantities_to_ranges`. The medication-code lookup reads
medication/code/fullUrl fields, which the loop's own dosage mutations never
touch, so it is evaluated against the input bundle. -/
def convert_dose_quantities_to_ranges (bundle : JVal)
    (dose_ranges : List DoseRangeInfo) : JVal :=
  if dose_ranges.isEmpty then bundle
  else
    let rbc := buildRangesByCode dose_ranges
    let step := (jentries bundle).foldl (fun (acc : List JVal × List Nat) entry =>
      let resource := entry.getD "resource" (.obj [])
      match resource.get? "resourceType" with
      | some (.str "MedicationStatement") =>
          (match get_medication_code_from_statement resource bundle with
           | some med_code =>
               (match lookupRangeIdx rbc med_code with
                | some idxs =>
                    (match pickUnused idxs acc.2 with
                     | some idx =>
                         let ri := (dose_ranges.get? idx).getD ⟨0, 0, none, none⟩
                         (acc.1 ++ [entry.set "resource" (convertStmtResource resource ri)],
                          acc.2 ++ [idx])
                     | none => (acc.1 ++ [entry], acc.2))
                | none => (acc.1 ++ [entry], acc.2))
           | none => (acc.1 ++ [entry], acc.2))
      | _ => (acc.1 ++ [entry], acc.2)) ([], [])
    bundle.set "entry" (.arr step.1)

theorem fixElem_mk (name : String) (ctx : Option String) (tag : String)
    (attrs : List (String × String)) (children : List XElem) :
    fixElem name ctx (.mk tag attrs children) =
      (XElem.mk tag
        (if localTag tag = name then processValueAttr name attrs ctx
         else (attrs, [], [])).1
        (fixChildren name (if localTag tag = "substanceAdministration"
            then findMedCode children else ctx) children).1,
       (if localTag tag = name then processValueAttr name attrs ctx
        else (attrs, [], [])).2.1 ++
         (fixChildren name (if localTag tag = "substanceAdministration"
             then findMedCode children else ctx) children).2.1,
       (if localTag tag = name then processValueAttr name attrs ctx
        else (attrs, [], [])).2.2 ++
         (fixChildren name (if localTag tag = "substanceAdministration"
             then findMedCode children else ctx) children).2.2) := rfl

theorem fixChildren_nil (name : String) (ctx : Option String) :
    fixChildren name ctx [] = ([], [], []) := rfl

theorem fixChildren_cons (name : String) (ctx : Option String) (c : XElem)
    (rest : List XElem) :
    fixChildren name ctx (c :: rest) =
      ((fixElem name ctx c).1 :: (fixChildren name ctx rest).1,
       (fixElem name ctx c).2.1 ++ (fixChildren name ctx rest).2.1,
       (fixElem name ctx c).2.2 ++ (fixChildren name ctx rest).2.2) := rfl

/-- A substanceAdministration holding a medication code along
`consumable/manufacturedProduct/manufacturedMaterial/code` and a doseQuantity
with the given value attribute. -/
def c6Doc (mcode v : String) : XElem :=
  .mk "substanceAdministration" [] [
    .mk "consumable" [] [
      .mk "manufacturedProduct" [] [
        .mk "manufacturedMaterial" [] [
          .mk "code" [("code", mcode)] []]]],
    .mk "doseQuantity" [("value", v)] []]

/-- A bundle with one MedicationStatement whose inline medication concept
carries the code and whose single dosage has one doseAndRate with a
doseQuantity. -/
def c6Bundle (mcode : String) (q : Rat) : JVal :=
  .obj [("resourceType", .str "Bundle"),
        ("entry", .arr [
          .obj [("resource", .obj [
            ("resourceType", .str "MedicationStatement"),
            ("medication", .obj [("concept", .obj [("coding",
              .arr [.obj [("code", .str mcode)]])])]),
            ("dosage", .arr [.obj [("doseAndRate", .arr [.obj [("doseQuantity",
              .obj [("value", .num q)])]])]])])]])]

/-- The same bundle after restoration: the doseQuantity replaced by a
doseRange with the recorded low and high. -/
def c6BundleConverted (mcode : String) (low high : Rat) : JVal :=
  .obj [("resourceType", .str "Bundle"),
        ("entry", .arr [
          .obj [("resource", .obj [
            ("resourceType", .str "MedicationStatement"),
            ("medication", .obj [("concept", .obj [("coding",
              .arr [.obj [("code", .str mcode)]])])]),
            ("dosage", .arr [.obj [("doseAndRate", .arr [.obj [("doseRange",
              .obj [("low", .obj [("value", .num low)]),
                    ("high", .obj [("value", .num high)])])]])]])])]])]

/-- C6: dose-range round trip. For a doseQuantity value matching the range
pattern with groups parsing to integers a and b, the sanitization pass
replaces the value with the formatted arithmetic average of a and b and
records a DoseRangeInfo with low=a, high=b and the owning medication's code;
feeding those ranges to `_convert_dose_quantities_to_ranges` rewrites the
doseQuantity of the MedicationStatement with the matching medication code into
a doseRange with low=a and high=b, removing the doseQuantity. -/
theorem C6_dose_range_round_trip (v s1 s2 mcode : String) (a b : Nat) (q : Rat)
    (hnm : numericMatch v = false)
    (hrm : rangeMatch v = some (s1, s2))
    (hp1 : parseDecimal s1 = (a : Rat))
    (hp2 : parseDecimal s2 = (b : Rat))
    (hmc : mcode ≠ "") :
    (fix_numeric_value_attributes (c6Doc mcode v) =
      (c6Doc mcode (formatAvg (((a : Rat) + (b : Rat)) / 2)),
       ["Sanitized doseQuantity/@value: '" ++ v ++ "' -> '" ++
          formatAvg (((a : Rat) + (b : Rat)) / 2) ++ "' (will use doseRange)"],
       [⟨(a : Rat), (b : Rat), none, some mcode⟩])) ∧
    (convert_dose_quantities_to_ranges (c6Bundle mcode q)
        (fix_numeric_value_attributes (c6Doc mcode v)).2.2 =
      c6BundleConverted mcode (a : Rat) (b : Rat)) := by
  have hl1 : localTag "substanceAdministration" = "substanceAdministration" := by decide
  have hl2 : localTag "consumable" = "consumable" := by decide
  have hl3 : localTag "manufacturedProduct" = "manufacturedProduct" := by decide
  have hl4 : localTag "manufacturedMaterial" = "manufacturedMaterial" := by decide
  have hl5 : localTag "code" = "code" := by decide
  have hl6 : localTag "doseQuantity" = "doseQuantity" := by decide
  have he1 : pyEndsWith "consumable" "consumable" = true := by decide
  have he2 : pyEndsWith "manufacturedProduct" "manufacturedProduct" = true := by decide
  have he3 : pyEndsWith "manufacturedMaterial" "manufacturedMaterial" = true := by decide
  have he4 : pyEndsWith "code" "code" = true := by decide
  have hfix : fix_numeric_value_attributes (c6Doc mcode v) =
      (c6Doc mcode (formatAvg (((a : Rat) + (b : Rat)) / 2)),
       ["Sanitized doseQuantity/@value: '" ++ v ++ "' -> '" ++
          formatAvg (((a : Rat) + (b : Rat)) / 2) ++ "' (will use doseRange)"],
       [⟨(a : Rat), (b : Rat), none, some mcode⟩]) := by
    simp [fix_numeric_value_attributes, c6Doc, fixElem_mk, fixChildren_nil,
      fixChildren_cons, processValueAttr, findMedCode, findCode1, findCode2,
      findCode3, findCode4, XElem.tag, XElem.attrs, XElem.children, localTag,
      hl1, hl2, hl3, hl4, hl5, hl6, he1, he2, he3, he4, lookupStr, dictSetStr,
      hnm, hrm, hp1, hp2]
  refine ⟨hfix, ?_⟩
  rw [hfix]
  simp [convert_dose_quantities_to_ranges, c6Bundle, c6BundleConverted,
    buildRangesByCode, buildRangesByCodeAux, addRangeIdx, lookupRangeIdx,
    pickUnused, get_medication_code_from_statement, firstTruthyCode,
    convertStmtResource, convertDosage, convertDoseAndRate, convertDnr,
    jentries, jtruthyOpt, jtruthy, JVal.getD, JVal.get?, JVal.getStr?,
    JVal.set, JVal.del, jlookup, jsetField, jdelField, pyOrStr,
    truthyStr_none_eq, truthyStr_some_of_ne, hmc]

theorem C6_dose_range_round_trip_witness :
    ((fix_numeric_value_attributes (c6Doc "197361" "1-2") =
      (c6Doc "197361" (formatAvg ((((1 : Nat) : Rat) + ((2 : Nat) : Rat)) / 2)),
       ["Sanitized doseQuantity/@value: '" ++ "1-2" ++ "' -> '" ++
          formatAvg ((((1 : Nat) : Rat) + ((2 : Nat) : Rat)) / 2) ++
          "' (will use doseRange)"],
       [⟨((1 : Nat) : Rat), ((2 : Nat) : Rat), none, some "197361"⟩])) ∧
     (convert_dose_quantities_to_ranges (c6Bundle "197361" (3 / 2))
        (fix_numeric_value_attributes (c6Doc "197361" "1-2")).2.2 =
      c6BundleConverted "197361" ((1 : Nat) : Rat) ((2 : Nat) : Rat))) ∧
    formatAvg ((((1 : Nat) : Rat) + ((2 : Nat) : Rat)) / 2) = "1.5" :=
  ⟨C6_dose_range_round_trip "1-2" "1" "2" "197361" 1 2 (3 / 2)
     (by decide) (by decide) (by decide) (by decide) (by decide),
   by
     have h : ((((1 : Nat) : Rat) + ((2 : Nat) : Rat)) / 2) = Rat.divInt 3 2 := by
       norm_num [Rat.divInt_eq_div]
     rw [h]
     decide⟩
